/-
Verification of the gux-tool core against its specification.

The development shallowly embeds the Python source of gux-tool
(`gux_checker/`): the lenient .gux spec parser, the colour palette and
distance engine, the Report aggregator, and the analysis techniques
(census, census-diff, colours, compare, lines, llm_vision, ocr, regions,
zones) together with the composite "all" technique.

Modelling conventions:
  * Machine integers are Nat/Int; Python floats are exact rationals (ℚ).
    `round(x, 1)` is modelled as exact banker's rounding on ℚ.
  * Colour distances are compared via squared distance: for integer pixel
    data, `rgb_distance(a,b) > t` iff `rgbDistSq a b > t^2`, so every
    threshold test in the techniques is embedded on squares.  The real
    Euclidean distance itself is `rgb_distance` below (for the palette
    contract only).
  * Fallible Python code (raised exceptions) returns Except; external
    collaborators (PIL image loading, sklearn k-means, numpy's seeded
    generator, tesseract, LLM endpoints, the OS environment) are fields of
    an explicit `Env` record, each a deterministic function.
  * Python regexes are embedded as explicit scanners with the same
    leftmost-match / greedy-backtracking semantics on the patterns the
    parser uses.
-/
import Mathlib

set_option maxRecDepth 4000

namespace GuxTool

/-! ## Colours and distance (palette.py is absent from the source tree;
these definitions are modelled from the spec §4.2 and its tests). -/

/-- A pixel colour: an (r, g, b) triple of 8-bit values carried as Nat. -/
abbrev RGB := Nat × Nat × Nat

/-- Squared Euclidean RGB distance, computed with signed (Int) arithmetic;
`rgb_distance(a,b) ≤ t` for integer data iff `rgbDistSq a b ≤ t^2`. -/
def rgbDistSq (a b : RGB) : Int :=
  ((a.1 : Int) - b.1) ^ 2 + ((a.2.1 : Int) - b.2.1) ^ 2 + ((a.2.2 : Int) - b.2.2) ^ 2

/-- Modelled from the spec: `distance(RGB, RGB) -> float`, the Euclidean
distance in RGB space using signed arithmetic (palette.py is not in src/;
its contract is spec §4.2 and tests/test_palette.py). -/
noncomputable def rgb_distance (a b : RGB) : ℝ :=
  Real.sqrt ((rgbDistSq a b : ℝ))

/-- The quote characters, named to keep literals readable. -/
def squote : Char := Char.ofNat 39

def dquote : Char := Char.ofNat 34

/-- Modelled from the spec: the fixed symbolic-name → hex colour table
(`TAILWIND` in the missing palette.py).  The spec only requires a fixed,
immutable table; the entries below are the ones its tests pin down plus a
small representative remainder. -/
def TAILWIND : List (String × String) :=
  [("white", "#ffffff"), ("black", "#000000"),
   ("slate50", "#f8fafc"), ("slate100", "#f1f5f9"), ("slate200", "#e2e8f0"),
   ("slate800", "#1e293b"), ("slate900", "#0f172a"),
   ("blue500", "#3b82f6"), ("blue600", "#2563eb"),
   ("teal600", "#0d9488"), ("red500", "#ef4444"), ("green500", "#22c55e")]

def hexDigitVal (c : Char) : Option Nat :=
  if '0' ≤ c ∧ c ≤ '9' then some (c.toNat - '0'.toNat)
  else if 'a' ≤ c ∧ c ≤ 'f' then some (c.toNat - 'a'.toNat + 10)
  else if 'A' ≤ c ∧ c ≤ 'F' then some (c.toNat - 'A'.toNat + 10)
  else none

def hexPairVal (hi lo : Char) : Option Nat := do
  let h ← hexDigitVal hi
  let l ← hexDigitVal lo
  pure (16 * h + l)

/-- Modelled from the spec: `toRGB(hex) -> RGB`; 3- or 6-digit forms with or
without a leading `#`; anything else resolves to black `(0,0,0)`. -/
def hex_to_rgb (s : String) : RGB :=
  let cs := s.toList
  let cs := match cs with
    | '#' :: rest => rest
    | _ => cs
  match cs with
  | [a, b, c] =>
    (match hexPairVal a a, hexPairVal b b, hexPairVal c c with
     | some r, some g, some bl => (r, g, bl)
     | _, _, _ => (0, 0, 0))
  | [a, b, c, d, e, f] =>
    (match hexPairVal a b, hexPairVal c d, hexPairVal e f with
     | some r, some g, some bl => (r, g, bl)
     | _, _, _ => (0, 0, 0))
  | _ => (0, 0, 0)

/-- Modelled from the spec: `nearest(RGB, threshold)`; returns the
minimum-distance palette name if within `threshold`, else none.  The
returned distance is the squared distance (equivalent for every integer
threshold comparison the techniques perform). -/
def nearest_colour (px : RGB) (threshold : Nat) : Option String × Int :=
  let cand := TAILWIND.map (fun nh => (nh.1, rgbDistSq px (hex_to_rgb nh.2)))
  let best := cand.foldl
    (fun acc nh => match acc with
      | none => some nh
      | some b => if nh.2 < b.2 then some nh else some b)
    none
  match best with
  | none => (none, 0)
  | some (n, d) => if d ≤ (threshold : Int) ^ 2 then (some n, d) else (none, d)

/-- Modelled from the spec: `resolveSymbolic`; maps a `tw.name` token to its
hex value, `none` if the name is unknown; non-`tw.` tokens pass through. -/
def resolve_tw (token : String) : Option String :=
  if "tw.".isPrefixOf token then
    (TAILWIND.find? (fun nh => nh.1 = (token.drop 3))).map (·.2)
  else
    some token

/-! ## Scanner primitives

The parser in core/gux_parser.py is regex-based.  Each regex it uses is
embedded as an explicit matcher on a suffix of the input (a `List Char`);
`searchFirst` provides `re.search` semantics (leftmost position whose
matcher succeeds) and `findIterGo` provides `re.finditer` semantics. -/

/-- `\s` (ASCII whitespace; the parser's inputs are ASCII-shaped). -/
def isWsChar (c : Char) : Bool :=
  c = ' ' ∨ c = '\t' ∨ c = '\n' ∨ c = '\r' ∨ c = '\x0b' ∨ c = '\x0c'

/-- `\w`. -/
def isWordChar (c : Char) : Bool := c.isAlphanum ∨ c = '_'

def isDigitChar (c : Char) : Bool := '0' ≤ c ∧ c ≤ '9'

/-- Consume an exact literal; `none` if the suffix does not start with it. -/
def pLit : List Char → List Char → Option (List Char)
  | [], s => some s
  | _ :: _, [] => none
  | l :: ls, c :: cs => if c = l then pLit ls cs else none

/-- Consume `\s*` (always succeeds). -/
def pWs (s : List Char) : List Char := s.dropWhile isWsChar

def pChar (c : Char) : List Char → Option (List Char)
  | [] => none
  | x :: xs => if x = c then some xs else none

def natOfDigits (ds : List Char) : Nat :=
  ds.foldl (fun n c => 10 * n + (c.toNat - '0'.toNat)) 0

/-- Consume `\d+`, returning the digit characters (greedy). -/
def pDigits (s : List Char) : Option (List Char × List Char) :=
  let ds := s.takeWhile isDigitChar
  if ds.isEmpty then none else some (ds, s.drop ds.length)

/-- `re.search`: try the matcher at every position, leftmost first; the
empty suffix (end of string) is also a position. -/
def searchFirst {α : Type} (m : List Char → Option α) : List Char → Option α
  | [] => m []
  | c :: rest =>
    match m (c :: rest) with
    | some a => some a
    | none => searchFirst m rest

/-- `re.finditer`: scan left to right; after a match of length `len`
continue at the position `len` characters later (all patterns used are
non-empty, but `max len 1` mirrors the engine's zero-width guard).
Records each match's start position. -/
def findIterGo {α : Type} (m : List Char → Option (α × Nat)) :
    Nat → List Char → Nat → List (Nat × α)
  | 0, _, _ => []
  | _ + 1, [], _ => []
  | fuel + 1, c :: rest, pos =>
    match m (c :: rest) with
    | some (a, len) =>
      (pos, a) :: findIterGo m fuel ((c :: rest).drop (max len 1)) (pos + max len 1)
    | none => findIterGo m fuel rest (pos + 1)

def findIter {α : Type} (m : List Char → Option (α × Nat)) (s : List Char) :
    List (Nat × α) :=
  findIterGo m s.length s 0

/-! ## Spec parser (core/gux_parser.py) -/

/-- Matcher for `Page\(\s*'([^']+)'`. -/
def matchPage (s : List Char) : Option String := do
  let s1 ← pLit "Page(".toList s
  let s2 := pWs s1
  let s3 ← pChar squote s2
  let name := s3.takeWhile (fun c => c ≠ squote)
  if name.isEmpty then none
  else do
    let _ ← pChar squote (s3.drop name.length)
    pure (String.mk name)

/-- `_extract_page_name`. -/
def extract_page_name (text : List Char) : Option String :=
  searchFirst matchPage text

/-- Matcher for `Viewport\(\s*(\d+)\s*,\s*(\d+)\s*\)`. -/
def matchViewport (s : List Char) : Option (Nat × Nat) := do
  let s1 ← pLit "Viewport(".toList s
  let (d1, s2) ← pDigits (pWs s1)
  let s3 ← pChar ',' (pWs s2)
  let (d2, s4) ← pDigits (pWs s3)
  let _ ← pChar ')' (pWs s4)
  pure (natOfDigits d1, natOfDigits d2)

/-- `_extract_viewport`. -/
def extract_viewport (text : List Char) : Option (Nat × Nat) :=
  searchFirst matchViewport text

/-- Matcher for `Zone\(\s*'([^']+)'\s*,` returning the name and the total
matched length (so `finditer` can resume after the match). -/
def matchZone (s : List Char) : Option (String × Nat) := do
  let s1 ← pLit "Zone(".toList s
  let s2 := pWs s1
  let s3 ← pChar squote s2
  let name := s3.takeWhile (fun c => c ≠ squote)
  if name.isEmpty then none
  else do
    let s4 ← pChar squote (s3.drop name.length)
    let s5 ← pChar ',' (pWs s4)
    pure (String.mk name, s.length - s5.length)

/-- All `Zone('name',` matches of the text: (start position, zone name). -/
def zoneMatches (text : List Char) : List (Nat × String) :=
  findIter matchZone text

/-- Core of `_extract_block`: number of characters up to and including the
parenthesis that returns the depth to zero, if reached. -/
def extractBlockGo : List Char → Int → Option Nat
  | [], _ => none
  | c :: rest, depth =>
    let depth' := if c = '(' then depth + 1 else if c = ')' then depth - 1 else depth
    if c = ')' ∧ depth' = 0 then some 1
    else (extractBlockGo rest depth').map (· + 1)

/-- `_extract_block`: the balanced-paren block from `start`, capped at 2000
characters; the truncated window if the cap (or the end) is hit first. -/
def extract_block (text : List Char) (start : Nat) : List Char :=
  let window := (text.drop start).take 2000
  match extractBlockGo window 0 with
  | some n => window.take n
  | none => window

/-- Matcher for `Bounds\(\s*(\d+)\s*,\s*(\d+)\s*,\s*(\d+)\s*,\s*(\d+)\s*\)`. -/
def matchBounds (s : List Char) : Option (Nat × Nat × Nat × Nat) := do
  let s1 ← pLit "Bounds(".toList s
  let (d1, s2) ← pDigits (pWs s1)
  let s3 ← pChar ',' (pWs s2)
  let (d2, s4) ← pDigits (pWs s3)
  let s5 ← pChar ',' (pWs s4)
  let (d3, s6) ← pDigits (pWs s5)
  let s7 ← pChar ',' (pWs s6)
  let (d4, s8) ← pDigits (pWs s7)
  let _ ← pChar ')' (pWs s8)
  pure (natOfDigits d1, natOfDigits d2, natOfDigits d3, natOfDigits d4)

/-- `_extract_bounds`. -/
def extract_bounds (block : List Char) : Option (Nat × Nat × Nat × Nat) :=
  searchFirst matchBounds block

/-- The colour token captured by the bg regex's alternation. -/
inductive BgTok where
  | quoted (s : String)
  | tw (token : String)
deriving DecidableEq

/-- The tail `bg:\s*(?:['\x22]([^'\x22]+)['\x22]|(tw\.\w+))` of the bg
regex, tried at one offset. -/
def matchBgAlt (s : List Char) : Option BgTok := do
  let s1 ← pLit "bg:".toList s
  let s2 := pWs s1
  match s2 with
  | [] => none
  | c :: rest =>
    if c = squote ∨ c = dquote then
      let body := rest.takeWhile (fun x => x ≠ squote ∧ x ≠ dquote)
      if body.isEmpty then none
      else
        match rest.drop body.length with
        | c2 :: _ =>
          if c2 = squote ∨ c2 = dquote then some (BgTok.quoted (String.mk body))
          else none
        | [] => none
    else do
      let s3 ← pLit "tw.".toList (c :: rest)
      let w := s3.takeWhile isWordChar
      if w.isEmpty then none else pure (BgTok.tw ("tw." ++ String.mk w))

/-- Greedy backtracking of `[^)]*\bbg:...` inside one `Style(` match: try the
longest consumption first (regex greediness), shrinking until the tail and
the `\b` word boundary both match.  `j` characters of `run` are consumed. -/
def tryBgFrom (s1 run : List Char) : Nat → Option BgTok
  | 0 => matchBgAlt s1
  | j + 1 =>
    let attempt :=
      if isWordChar ((run.get? j).getD ' ') then none
      else matchBgAlt (s1.drop (j + 1))
    match attempt with
    | some t => some t
    | none => tryBgFrom s1 run j

/-- Matcher for `Style\([^)]*\bbg:\s*(?:['\x22]([^'\x22]+)['\x22]|(tw\.\w+))`
at one position (the char before offset 0 of `run` is `(`, a non-word
character, so the boundary holds there without a test). -/
def matchStyleBg (s : List Char) : Option BgTok := do
  let s1 ← pLit "Style(".toList s
  let run := s1.takeWhile (fun c => c ≠ ')')
  tryBgFrom s1 run run.length

/-- `_extract_bg`: first (leftmost, then greediest) bg colour in the block;
symbolic `tw.` tokens resolved through the palette. -/
def extract_bg (block : List Char) : Option String :=
  match searchFirst matchStyleBg block with
  | some (BgTok.quoted s) => some s
  | some (BgTok.tw t) => resolve_tw t
  | none => none

/-- Structural assertions parsed from `Assert(...)` (types.py `GuxAssert`;
float thresholds modelled as exact rationals). -/
structure GuxAssert where
  min_transitions_v : Option ℚ := none
  min_transitions_h : Option ℚ := none
  min_regions : Option Nat := none
  non_blank : Bool := false
deriving DecidableEq

/-- Matcher for `assert\s*:\s*Assert\(([^)]+)\)`, returning the inner text. -/
def matchAssert (s : List Char) : Option (List Char) := do
  let s1 ← pLit "assert".toList s
  let s2 ← pChar ':' (pWs s1)
  let s3 ← pLit "Assert(".toList (pWs s2)
  let inner := s3.takeWhile (fun c => c ≠ ')')
  if inner.isEmpty then none
  else
    match s3.drop inner.length with
    | c :: _ => if c = ')' then some inner else none
    | [] => none

/-- Matcher for `<key>\s*:\s*(\d+(?:\.\d+)?)` at one position: a decimal
number, the fractional group optional. -/
def matchKeyNum (key : List Char) (s : List Char) : Option ℚ := do
  let s1 ← pLit key s
  let s2 ← pChar ':' (pWs s1)
  let (ds, s3) ← pDigits (pWs s2)
  let intPart : ℚ := (natOfDigits ds : ℚ)
  match s3 with
  | '.' :: rest =>
    match pDigits rest with
    | some (fs, _) => pure (intPart + (natOfDigits fs : ℚ) / (10 : ℚ) ^ fs.length)
    | none => pure intPart
  | _ => pure intPart

/-- Matcher for `<key>\s*:\s*(\d+)`. -/
def matchKeyInt (key : List Char) (s : List Char) : Option Nat := do
  let s1 ← pLit key s
  let s2 ← pChar ':' (pWs s1)
  let (ds, _) ← pDigits (pWs s2)
  pure (natOfDigits ds)

/-- Matcher for `non_blank\s*:\s*(true|false)`. -/
def matchNonBlank (s : List Char) : Option Bool := do
  let s1 ← pLit "non_blank".toList s
  let s2 ← pChar ':' (pWs s1)
  let s3 := pWs s2
  match pLit "true".toList s3 with
  | some _ => pure true
  | none =>
    match pLit "false".toList s3 with
    | some _ => pure false
    | none => none

/-- `_extract_assert`: the first `Assert(...)` in the block; each of the
four keys matched independently inside it; `none` if no key matched. -/
def extract_assert (block : List Char) : Option GuxAssert :=
  match searchFirst matchAssert block with
  | none => none
  | some inner =>
    let mv := searchFirst (matchKeyNum "min_transitions_v".toList) inner
    let mh := searchFirst (matchKeyNum "min_transitions_h".toList) inner
    let mr := searchFirst (matchKeyInt "min_regions".toList) inner
    let nb := searchFirst matchNonBlank inner
    if mv.isSome || mh.isSome || mr.isSome || nb.isSome then
      some { min_transitions_v := mv, min_transitions_h := mh,
             min_regions := mr, non_blank := nb.getD false }
    else none

/-- Python `str.rstrip` on a char list. -/
def rstripCh (s : List Char) : List Char := (s.reverse.dropWhile isWsChar).reverse

/-- Python `str.strip` on a char list. -/
def stripCh (s : List Char) : List Char :=
  ((s.dropWhile isWsChar).reverse.dropWhile isWsChar).reverse

/-- Python `str.split('\n')` (the empty string yields one empty line). -/
def splitLinesCh : List Char → List (List Char)
  | [] => [[]]
  | c :: rest =>
    if c = '\n' then [] :: splitLinesCh rest
    else
      match splitLinesCh rest with
      | [] => [[c]]
      | l :: ls => (c :: l) :: ls

/-- `_extract_doc_comment`: walk backward from the zone marker over
contiguous `///` lines; stored top-to-bottom, `none` if there are none. -/
def extract_doc_comment (text : List Char) (zone_start : Nat) : Option String :=
  let lines_before := splitLinesCh (rstripCh (text.take zone_start))
  let doc_lines :=
    (lines_before.reverse.takeWhile (fun l => "///".toList.isPrefixOf (stripCh l))).map
      (fun l => String.mk (stripCh ((stripCh l).drop 3)))
  if doc_lines.isEmpty then none
  else some (String.intercalate "\n" doc_lines.reverse)

/-- A zone parsed from a .gux spec (types.py `GuxZone`). -/
structure GuxZone where
  name : String
  bounds : Nat × Nat × Nat × Nat
  expected_bg : Option String := none
  doc : Option String := none
  assertions : Option GuxAssert := none
deriving DecidableEq

/-- The zone built for one `Zone(` match whose block yielded `bounds`. -/
def zoneFromMatch (text : List Char) (start : Nat) (name : String)
    (bounds : Nat × Nat × Nat × Nat) : GuxZone :=
  let block := extract_block text start
  { name := name, bounds := bounds,
    expected_bg := extract_bg block,
    doc := extract_doc_comment text start,
    assertions := extract_assert block }

/-- `_extract_zones`: every `Zone(` match whose block has a `Bounds(...)`;
matches without bounds are silently dropped. -/
def extract_zones (text : List Char) : List GuxZone :=
  (zoneMatches text).filterMap (fun m =>
    (extract_bounds (extract_block text m.1)).map (zoneFromMatch text m.1 m.2))

/-- Parsed .gux file (types.py `GuxSpec`). -/
structure GuxSpec where
  page_name : String
  viewport : Nat × Nat
  zones : List GuxZone
  raw : String
deriving DecidableEq

/-- `parse_gux_string`: total; missing page name / viewport degrade to
`"unknown"` / `(0,0)` (the Python `or` defaults: both extractors only ever
produce truthy values, so `or` coincides with `Option.getD`). -/
def parse_gux_string (text : String) : GuxSpec :=
  let cs := text.toList
  { page_name := (extract_page_name cs).getD "unknown",
    viewport := (extract_viewport cs).getD (0, 0),
    zones := extract_zones cs,
    raw := text }

/-! ## Images, payloads, the Report (core/types.py) -/

/-- A decoded RGB image buffer (the external collaborator PIL provides):
`pix y x` is the pixel at row `y`, column `x` (numpy's `arr[y][x]`). -/
structure Img where
  width : Nat
  height : Nat
  pix : Nat → Nat → RGB

/-- Row `y` as numpy's `arr[y]`. -/
def Img.row (img : Img) (y : Nat) : List RGB :=
  (List.range img.width).map (fun x => img.pix y x)

/-- Column `x` as numpy's `arr[:, x]`. -/
def Img.col (img : Img) (x : Nat) : List RGB :=
  (List.range img.height).map (fun y => img.pix y x)

/-- `arr.reshape(-1, 3)`: all pixels, row-major. -/
def Img.pixels (img : Img) : List RGB :=
  (List.range img.height).flatMap (fun y => img.row y)

/-- PIL `Image.crop((x1, y1, x2, y2))`: out-of-extent area is zero-filled. -/
def Img.crop (img : Img) (x1 y1 x2 y2 : Nat) : Img :=
  { width := x2 - x1, height := y2 - y1,
    pix := fun y x =>
      if x1 + x < img.width ∧ y1 + y < img.height then img.pix (y1 + y) (x1 + x)
      else (0, 0, 0) }

/-- A cropped zone ready for analysis (types.py `ZoneImage`). -/
structure ZoneImage where
  name : String
  bounds : Nat × Nat × Nat × Nat
  image : Img
  expected_bg : Option String := none
  doc : Option String := none
  assertions : Option GuxAssert := none

/-- A JSON-shaped technique result payload (the Python dicts techniques
write into the report). -/
inductive Val where
  | null : Val
  | bool : Bool → Val
  | num : ℚ → Val
  | str : String → Val
  | arr : List Val → Val
  | obj : List (String × Val) → Val

/-- Ordered-dict lookup. -/
def getAssoc {κ β : Type} [DecidableEq κ] (k : κ) : List (κ × β) → Option β
  | [] => none
  | (k', v) :: rest => if k' = k then some v else getAssoc k rest

/-- Python `d[k] = v`: overwrite in place if present, else append (dict
insertion-order semantics). -/
def setAssoc {κ β : Type} [DecidableEq κ] (k : κ) (v : β) : List (κ × β) → List (κ × β)
  | [] => [(k, v)]
  | (k', v') :: rest => if k' = k then (k, v) :: rest else (k', v') :: setAssoc k v rest

/-- Modify the value at an existing key in place. -/
def mapAssoc {κ β : Type} [DecidableEq κ] (k : κ) (f : β → β) : List (κ × β) → List (κ × β)
  | [] => []
  | (k', v') :: rest => if k' = k then (k', f v') :: rest else (k', v') :: mapAssoc k f rest

def hasKey {κ β : Type} [DecidableEq κ] (k : κ) (l : List (κ × β)) : Bool :=
  l.any (fun kv => kv.1 = k)

/-- Increment a counter key (`counts[key] = counts.get(key, 0) + 1`). -/
def incrAssoc {κ : Type} [DecidableEq κ] (k : κ) (l : List (κ × Nat)) : List (κ × Nat) :=
  setAssoc k ((getAssoc k l).getD 0 + 1) l

/-- Insert before the first element not strictly earlier — the insertion
step of a stable sort. -/
def insertSorted {α : Type} (le : α → α → Bool) (a : α) : List α → List α
  | [] => [a]
  | b :: bs => if le a b then a :: b :: bs else b :: insertSorted le a bs

/-- Stable sort by a total `le` (structurally recursive, so concrete runs
evaluate).  For a total preorder the stable sort is unique, so this is
exactly Python's `sorted`. -/
def pySorted {α : Type} (le : α → α → Bool) : List α → List α
  | [] => []
  | a :: as => insertSorted le a (pySorted le as)

/-- Code-point lexicographic order — Python's `str` comparison. -/
def charListLe : List Char → List Char → Bool
  | [], _ => true
  | _ :: _, [] => false
  | c :: cs, d :: ds =>
    if c.toNat < d.toNat then true
    else if d.toNat < c.toNat then false
    else charListLe cs ds

def strLe (a b : String) : Bool := charListLe a.toList b.toList

/-- One zone's slot in the report. -/
structure ZoneEntry where
  bounds : Option (Nat × Nat × Nat × Nat)
  techniques : List (String × Val)

/-- The Report aggregator (types.py `Report`).  The rendering-only header
fields are omitted; `zones` keeps insertion order like a Python dict. -/
structure Report where
  zones : List (String × ZoneEntry)
  pass_count : Nat
  fail_count : Nat

def Report.empty : Report := { zones := [], pass_count := 0, fail_count := 0 }

/-- `Report.add`: create the zone entry (null bounds) if absent, then
upsert the technique's payload. -/
def Report.add (r : Report) (zone_name technique_name : String) (data : Val) : Report :=
  let zs := if hasKey zone_name r.zones then r.zones
            else r.zones ++ [(zone_name, ⟨none, []⟩)]
  let zs' := mapAssoc zone_name
    (fun e => { e with techniques := setAssoc technique_name data e.techniques }) zs
  { r with zones := zs' }

/-- `Report.set_bounds`. -/
def Report.set_bounds (r : Report) (zone_name : String)
    (bounds : Nat × Nat × Nat × Nat) : Report :=
  let zs := if hasKey zone_name r.zones then r.zones
            else r.zones ++ [(zone_name, ⟨none, []⟩)]
  { r with zones := mapAssoc zone_name (fun e => { e with bounds := some bounds }) zs }

/-- `record_pass`: global counter only; the zone name is ignored. -/
def Report.record_pass (r : Report) (_zone_name : String) : Report :=
  { r with pass_count := r.pass_count + 1 }

/-- `record_fail`: global counter only; the zone name is ignored. -/
def Report.record_fail (r : Report) (_zone_name : String) : Report :=
  { r with fail_count := r.fail_count + 1 }

/-- The payload a technique has recorded for a zone, if any. -/
def Report.getTech (r : Report) (zone_name technique_name : String) : Option Val :=
  (getAssoc zone_name r.zones).bind (fun e => getAssoc technique_name e.techniques)

/-! ## Floats, rounding, randomness -/

/-- Banker's rounding to an integer (Python `round` on an exact value). -/
def roundHalfEven (q : ℚ) : ℤ :=
  let f := ⌊q⌋
  let r := q - (f : ℚ)
  if r < 1 / 2 then f
  else if 1 / 2 < r then f + 1
  else if Even f then f else f + 1

/-- Python `round(x, 1)`, modelled exactly on ℚ. -/
def round1 (q : ℚ) : ℚ := (roundHalfEven (q * 10) : ℚ) / 10

/-- `np.random.default_rng(seed)`: with an explicit seed the generator
state is the seed; unseeded it draws OS entropy.  The techniques always
pass `some 42`. -/
def rngState (seed : Option Nat) (entropy : Nat) : Nat :=
  match seed with
  | some s => s
  | none => entropy

/-- Models numpy `Generator.choice(total, n, replace=False)` — external
library code, deterministic given the generator state. -/
def rngChoice (state total n : Nat) : List Nat :=
  (List.range n).map (fun i => (state + i * (total / max n 1)) % max total 1)

/-- `pixels[indices]` for a sampled index list. -/
def sampleAt (pixels : List RGB) (indices : List Nat) : List RGB :=
  indices.map (fun i => (pixels.get? i).getD (0, 0, 0))

/-! ## External collaborators and CLI options -/

/-- One OCR'd word from the external text-recognition engine. -/
structure OcrWord where
  text : String
  x : Int
  y : Int
  w : Int
  h : Int
  conf : Int

/-- The ambient world outside the core: decoded images, optional
libraries, external engines, OS entropy and environment.  Every field is a
deterministic function — the embedding of "direct blocking call". -/
structure Env where
  entropy : Nat
  sklearn : Bool
  kmeans : Nat → Nat → List RGB → List (RGB × Nat)
  loadImage : String → Option Img
  resize : Img → Nat → Nat → Img
  pytesseract : Bool
  ocrData : Img → Except String (List OcrWord)
  openaiLib : Bool
  envVar : String → Option String
  llmVision : String → String → String → Img → String → String
  rfc : String

/-- The argparse namespace fields the techniques read (`--ref` etc.).
Python truthiness: a `ref` of `none` or `""` counts as absent. -/
structure Args where
  ref : Option String := none
  gux : Option String := none
  tmp_dir : String := "tmp"
  api_key : Option String := none
  provider : Option String := none
  prompt : Option String := none
  list_models : Bool := false
  prime_rfc : Bool := false

/-- `hasattr(args, 'ref') and args.ref` (all.py) and the equivalent
`not hasattr(args, 'ref') or not args.ref` guards (census_diff, compare). -/
def hasRef (a : Args) : Bool :=
  match a.ref with
  | none => false
  | some s => s ≠ ""

/-- The uniform technique contract `execute(zones, report, args)`; a raised
Python exception is `Except.error`. -/
abbrev TechRun := Env → List ZoneImage → Report → Args → Except String Report

/-! ## Technique: lines (techniques/lines.py) -/

def TRANSITION_THRESHOLD : Nat := 30

def NUM_LINES : Nat := 10

/-- `_count_transitions`: adjacent positions whose RGB distance exceeds 30
(on integer pixels, distance > 30 iff squared distance > 900). -/
def count_transitions : List RGB → Nat
  | [] => 0
  | [_] => 0
  | a :: b :: rest =>
    (if rgbDistSq a b > 900 then 1 else 0) + count_transitions (b :: rest)

/-- `np.linspace(0, nm1, k, dtype=int)`: k evenly spaced values from 0 to
nm1, truncated to integers (exact rational floor). -/
def linspaceIdx (nm1 k : Nat) : List Nat :=
  if k ≤ 1 then [0]
  else (List.range k).map (fun i => i * nm1 / (k - 1))

/-- One check-result dict from `_check_assertions`. -/
def checkVal (check : String) (threshold got : ℚ) (pass : Bool) : Val :=
  Val.obj [("check", Val.str check), ("threshold", Val.num threshold),
           ("got", Val.num got), ("pass", Val.bool pass)]

/-- `_check_assertions`: the vertical check runs when `non_blank` is set or
an explicit vertical threshold exists (default threshold 1.0); the
horizontal check runs when its threshold exists; each records pass/fail. -/
def check_assertions (zone : ZoneImage) (h_avg v_avg : ℚ) (report : Report) :
    List Val × Report :=
  match zone.assertions with
  | none => ([], report)
  | some a =>
    let step1 :=
      if a.non_blank || a.min_transitions_v.isSome then
        let threshold_v := a.min_transitions_v.getD 1
        let passed := decide (threshold_v ≤ v_avg)
        ([checkVal "min_transitions_v" threshold_v v_avg passed],
         if passed then report.record_pass zone.name else report.record_fail zone.name)
      else ([], report)
    let step2 :=
      match a.min_transitions_h with
      | some th =>
        let passed := decide (th ≤ h_avg)
        ([checkVal "min_transitions_h" th h_avg passed],
         if passed then step1.2.record_pass zone.name else step1.2.record_fail zone.name)
      | none => ([], step1.2)
    (step1.1 ++ step2.1, step2.2)

/-- The `(h_avg, v_avg)` pair `lines.run` computes for a crop: rounded
averages of the transition counts over up to 10 evenly spaced scan lines
per orientation. -/
def lineAverages (img : Img) : ℚ × ℚ :=
  let y_positions := linspaceIdx (img.height - 1) (min NUM_LINES img.height)
  let h_transitions := y_positions.map (fun y => count_transitions (img.row y))
  let x_positions := linspaceIdx (img.width - 1) (min NUM_LINES img.width)
  let v_transitions := x_positions.map (fun x => count_transitions (img.col x))
  (round1 ((h_transitions.sum : ℚ) / (max h_transitions.length 1 : Nat)),
   round1 ((v_transitions.sum : ℚ) / (max v_transitions.length 1 : Nat)))

/-- The per-zone body of `lines.run`. -/
def linesStep (zone : ZoneImage) (report : Report) : Report :=
  let h := zone.image.height
  let w := zone.image.width
  if h < 2 ∨ w < 2 then
    report.add zone.name "lines"
      (Val.obj [("h_avg_transitions", Val.num 0), ("v_avg_transitions", Val.num 0)])
  else
    let avgs := lineAverages zone.image
    let res := check_assertions zone avgs.1 avgs.2 report
    let base := [("h_avg_transitions", Val.num avgs.1), ("v_avg_transitions", Val.num avgs.2)]
    let fields := if res.1.isEmpty then base else base ++ [("assertions", Val.arr res.1)]
    res.2.add zone.name "lines" (Val.obj fields)

def linesRun : TechRun := fun _env zones report _args =>
  Except.ok (zones.foldl (fun r z => linesStep z r) report)

/-! ## Technique: regions (techniques/regions.py) -/

def COLOUR_THRESHOLD : Nat := 30

def NUM_SCANS : Nat := 20

/-- A colour run found on a scan line: inclusive start/end x and the
truncated per-channel mean colour. -/
structure Run where
  start : Nat
  stop : Nat
  colour : RGB
deriving DecidableEq

/-- `int(np.mean(...))` per channel (truncation = floor on these
non-negative values). -/
def avgColour (cs : List RGB) : RGB :=
  ((cs.map (·.1)).sum / cs.length,
   (cs.map (·.2.1)).sum / cs.length,
   (cs.map (·.2.2)).sum / cs.length)

/-- The scan loop of `_find_runs`: `i` is the index of `curr` in the full
line, `run_start` the current run's start, `run_colours` its pixels. -/
def findRunsGo (prev : RGB) (rest : List RGB) (i run_start : Nat)
    (run_colours : List RGB) : List Run :=
  match rest with
  | [] =>
    if i - run_start > 5 then [⟨run_start, i - 1, avgColour run_colours⟩] else []
  | curr :: rest' =>
    if rgbDistSq prev curr > 900 then
      let tail := findRunsGo curr rest' (i + 1) i [curr]
      if i - run_start > 5 then ⟨run_start, i - 1, avgColour run_colours⟩ :: tail
      else tail
    else findRunsGo curr rest' (i + 1) run_start (run_colours ++ [curr])

/-- `_find_runs`: maximal same-colour runs (consecutive RGB distance ≤ 30),
kept only when `i - run_start > 5`, i.e. when the run is wider than 5px. -/
def findRuns : List RGB → List Run
  | [] => []
  | c0 :: rest => findRunsGo c0 rest 1 0 [c0]

/-- The maximal-run decomposition of a scan line, with no width filter:
the specification-level counterpart of `_find_runs`. -/
structure Seg where
  start : Nat
  stop : Nat
  pixels : List RGB
deriving DecidableEq

def Seg.width (s : Seg) : Nat := s.stop + 1 - s.start

def segmentsGo (prev : RGB) (rest : List RGB) (i run_start : Nat)
    (run_colours : List RGB) : List Seg :=
  match rest with
  | [] => [⟨run_start, i - 1, run_colours⟩]
  | curr :: rest' =>
    if rgbDistSq prev curr > 900 then
      ⟨run_start, i - 1, run_colours⟩ :: segmentsGo curr rest' (i + 1) i [curr]
    else segmentsGo curr rest' (i + 1) run_start (run_colours ++ [curr])

/-- All maximal runs of a line (every pixel belongs to exactly one). -/
def segments : List RGB → List Seg
  | [] => []
  | c0 :: rest => segmentsGo c0 rest 1 0 [c0]

/-- The run `_find_runs` would emit for a kept segment. -/
def Seg.toRun (s : Seg) : Run := ⟨s.start, s.stop, avgColour s.pixels⟩

/-- The per-zone body of `regions.run`. -/
def regionsStep (zone : ZoneImage) (report : Report) : Report :=
  let h := zone.image.height
  let w := zone.image.width
  if h < 10 ∨ w < 10 then
    report.add zone.name "regions" (Val.obj [("count", Val.num 0), ("regions", Val.arr [])])
  else
    let y_positions := linspaceIdx (h - 1) (min NUM_SCANS h)
    let all_runs := y_positions.map (fun y => (y, findRuns (zone.image.row y)))
    let boundaries : List (Nat × Nat) :=
      all_runs.foldl (fun bs yr =>
        yr.2.foldl (fun bs r =>
          incrAssoc (r.stop / 10 * 10) (incrAssoc (r.start / 10 * 10) bs)) bs) []
    let min_count : ℚ := max 1 ((y_positions.length : ℚ) * (2 / 5))
    let real_edges :=
      pySorted (fun a b => a ≤ b)
        ((boundaries.filter (fun bc => min_count ≤ (bc.2 : ℚ))).map (·.1))
    let detected :=
      if real_edges.length ≥ 2 then
        (List.range (real_edges.length - 1)).filterMap (fun i =>
          let x1 := (real_edges.get? i).getD 0
          let x2 := (real_edges.get? (i + 1)).getD 0
          if x2 - x1 < 20 then none
          else
            let cx := (x1 + x2) / 2
            let cy := h / 2
            if cx < w ∧ cy < h then
              let px := zone.image.pix cy cx
              let nm := (nearest_colour px 50).1
              some (Val.obj [("x1", Val.num x1), ("y1", Val.num 0),
                             ("x2", Val.num x2), ("y2", Val.num h),
                             ("colour", match nm with | some n => Val.str n | none => Val.null)])
            else none)
      else []
    report.add zone.name "regions"
      (Val.obj [("count", Val.num detected.length), ("regions", Val.arr detected)])

def regionsRun : TechRun := fun _env zones report _args =>
  Except.ok (zones.foldl (fun r z => regionsStep z r) report)

/-! ## Technique: census (techniques/census.py) -/

/-- The bucket name a sampled pixel maps to. -/
def censusKey (px : RGB) : String :=
  match (nearest_colour px 50).1 with
  | some n => n
  | none => "(other)"

/-- Stable descending sort by count (`sorted(..., key=lambda x: -x[1])`). -/
def sortByCountDesc {κ : Type} (l : List (κ × Nat)) : List (κ × Nat) :=
  pySorted (fun a b => b.2 ≤ a.2) l

/-- The per-zone body of `census.run`: sample up to 10,000 pixels (seeded
generator), bucket by nearest palette name within distance 50, report the
top 10 with percentages. -/
def censusStep (env : Env) (zone : ZoneImage) (report : Report) : Report :=
  let pixels := zone.image.pixels
  let n_samples := min 10000 pixels.length
  let pixels :=
    if pixels.length > n_samples then
      sampleAt pixels (rngChoice (rngState (some 42) env.entropy) pixels.length n_samples)
    else pixels
  let counts := pixels.foldl (fun cs px => incrAssoc (censusKey px) cs) []
  let total := (counts.map (·.2)).sum
  let top := (sortByCountDesc counts).take 10
  let result := top.map (fun nc =>
    Val.obj [("name", Val.str nc.1), ("pct", Val.num (round1 ((nc.2 : ℚ) / total * 100)))])
  report.add zone.name "census" (Val.obj [("top", Val.arr result), ("samples", Val.num total)])

def censusRun : TechRun := fun env zones report _args =>
  Except.ok (zones.foldl (fun r z => censusStep env z r) report)

/-! ## Technique: census-diff (techniques/census_diff.py) -/

def SAMPLE_SIZE : Nat := 10000

def SHIFT_THRESHOLD : ℚ := 5

/-- `_census`: percentage dict (name → rounded pct), sorted by count
descending; insertion order of the resulting dict is the sorted order. -/
def censusPercents (env : Env) (img : Img) : List (String × ℚ) :=
  let pixels := img.pixels
  let n := min SAMPLE_SIZE pixels.length
  let pixels :=
    if pixels.length > n then
      sampleAt pixels (rngChoice (rngState (some 42) env.entropy) pixels.length n)
    else pixels
  let counts := pixels.foldl (fun cs px => incrAssoc (censusKey px) cs) []
  let total := (counts.map (·.2)).sum
  (sortByCountDesc counts).map (fun kv => (kv.1, round1 ((kv.2 : ℚ) / total * 100)))

/-- `_compute_shifts`: colours whose share moved by ≥ 5 percentage points,
sorted by magnitude descending.  (`set(ref) | set(cur)` iterates in an
unspecified hash order in Python; it is modelled as first-seen order, which
only permutes ties of the final stable sort.) -/
def computeShifts (ref cur : List (String × ℚ)) : List Val :=
  let all_colours := ref.map (·.1) ++ (cur.map (·.1)).filter (fun k => ¬ hasKey k ref)
  let shifts := all_colours.filterMap (fun colour =>
    let ref_pct := (getAssoc colour ref).getD 0
    let cur_pct := (getAssoc colour cur).getD 0
    let delta := cur_pct - ref_pct
    if SHIFT_THRESHOLD ≤ |delta| then
      some (delta, Val.obj [("colour", Val.str colour), ("ref_pct", Val.num ref_pct),
                            ("cur_pct", Val.num cur_pct), ("delta", Val.num (round1 delta))])
    else none)
  (pySorted (fun a b => |b.1| ≤ |a.1|) shifts).map (·.2)

/-- First five `(name, pct)` entries as the payload stores them. -/
def topFiveVal (c : List (String × ℚ)) : Val :=
  Val.arr ((c.take 5).map (fun kv => Val.arr [Val.str kv.1, Val.num kv.2]))

/-- The per-zone body of `census-diff.run` once the reference is loaded. -/
def censusDiffStep (env : Env) (ref_img : Img) (zone : ZoneImage) (report : Report) :
    Report :=
  let b := zone.bounds
  let ref_crop := ref_img.crop b.1 b.2.1 b.2.2.1 b.2.2.2
  let ref_census := censusPercents env ref_crop
  let cur_census := censusPercents env zone.image
  let shifts := computeShifts ref_census cur_census
  let ref_top := (ref_census.head?).map (·.1)
  let cur_top := (cur_census.head?).map (·.1)
  let dominant_changed := ref_top != cur_top
  let r1 := report.add zone.name "census-diff"
    (Val.obj [("ref_top", topFiveVal ref_census), ("cur_top", topFiveVal cur_census),
              ("shifts", Val.arr shifts), ("dominant_changed", Val.bool dominant_changed)])
  if dominant_changed then r1.record_fail zone.name else r1.record_pass zone.name

/-- The structured payload written when a required reference is missing. -/
def refRequiredErr : Val := Val.obj [("error", Val.str "--ref reference image required")]

/-- `census-diff.run`: without `--ref`, write the error payload for every
zone and return; with it, `Image.open` may raise (missing file). -/
def censusDiffRun : TechRun := fun env zones report args =>
  if ¬ hasRef args then
    Except.ok (zones.foldl (fun r z => r.add z.name "census-diff" refRequiredErr) report)
  else
    match env.loadImage (args.ref.getD "") with
    | none => Except.error ("FileNotFoundError: " ++ args.ref.getD "")
    | some ref_img =>
      Except.ok (zones.foldl (fun r z => censusDiffStep env ref_img z r) report)

/-! ## Technique: colours (techniques/colours.py) -/

def hexDigitChar (n : Nat) : Char :=
  if n < 10 then Char.ofNat ('0'.toNat + n) else Char.ofNat ('a'.toNat + n - 10)

def byteHex (n : Nat) : String :=
  String.mk [hexDigitChar (n / 16 % 16), hexDigitChar (n % 16)]

/-- `_rgb_to_hex`. -/
def rgb_to_hex (r g b : Nat) : String := "#" ++ byteHex r ++ byteHex g ++ byteHex b

/-- Lexicographic row order (`np.unique(..., axis=0)` sorts rows). -/
def rgbLe (a b : RGB) : Bool :=
  a.1 < b.1 ∨ (a.1 = b.1 ∧ (a.2.1 < b.2.1 ∨ (a.2.1 = b.2.1 ∧ a.2.2 ≤ b.2.2)))

/-- The ImportError fallback of `_extract_dominant`: quantize to 32-level
bins, count unique quantized colours, keep the `n_clusters` most frequent.
(`np.argsort(-counts)` breaks ties in an unspecified deterministic order;
modelled as a stable sort.) -/
def quantizedClusters (pixels : List RGB) (n_clusters : Nat) : List (RGB × Nat) :=
  let quantized := pixels.map (fun p => (p.1 / 32 * 32 + 16, p.2.1 / 32 * 32 + 16, p.2.2 / 32 * 32 + 16))
  let counts := quantized.foldl (fun cs px => incrAssoc px cs) []
  let uniqueSorted := pySorted (fun a b => rgbLe a.1 b.1) counts
  (sortByCountDesc uniqueSorted).take n_clusters

/-- One dominant-colour cluster as reported. -/
structure DomCluster where
  hexStr : String
  pct : ℚ
  nearest : Option String
  r : Nat
  g : Nat
  b : Nat

def DomCluster.toVal (c : DomCluster) : Val :=
  Val.obj [("hex", Val.str c.hexStr), ("pct", Val.num c.pct),
           ("nearest", match c.nearest with | some n => Val.str n | none => Val.null),
           ("r", Val.num c.r), ("g", Val.num c.g), ("b", Val.num c.b)]

/-- `_extract_dominant`: sample up to `n_samples` pixels (seeded generator),
cluster via sklearn's seeded KMeans when available (an external
collaborator, `env.kmeans`), else the quantization fallback; report each
cluster's hex centre, share and nearest palette name, sorted by share. -/
def extract_dominant (env : Env) (image : Img) (n_clusters n_samples : Nat) :
    List DomCluster :=
  let pixels := image.pixels
  let pixels :=
    if pixels.length > n_samples then
      sampleAt pixels (rngChoice (rngState (some 42) env.entropy) pixels.length n_samples)
    else pixels
  let clusters :=
    if env.sklearn then env.kmeans 42 (min n_clusters pixels.length) pixels
    else quantizedClusters pixels n_clusters
  let total := (clusters.map (·.2)).sum
  let results := clusters.map (fun cc =>
    let c := cc.1
    let pct : ℚ := (cc.2 : ℚ) / total * 100
    { hexStr := rgb_to_hex c.1 c.2.1 c.2.2, pct := round1 pct,
      nearest := (nearest_colour c 30).1, r := c.1, g := c.2.1, b := c.2.2 : DomCluster })
  pySorted (fun a b => b.pct ≤ a.pct) results

/-- `round(math.sqrt s, 1)` for an integer squared distance `s`: the
rounded-to-tenths square root, computed exactly (a tie `√(100 s) = k + ½`
is impossible for integer `s`, so nearest-rounding is unambiguous). -/
def sqrtRound1 (s : Nat) : ℚ :=
  let m := 100 * s
  let n := Nat.sqrt m
  (if (2 * n + 1) ^ 2 ≤ 4 * m then (n + 1 : ℚ) else (n : ℚ)) / 10

/-- The per-zone body of `colours.run`: dominant clusters, plus the
expected-background comparison (`pass iff distance < 20`, i.e. squared
distance < 400) when the zone declares one. -/
def coloursStep (env : Env) (zone : ZoneImage) (report : Report) : Report :=
  let dominant := extract_dominant env zone.image 5 5000
  let base := [("dominant", Val.arr (dominant.map DomCluster.toVal))]
  match zone.expected_bg with
  | none => report.add zone.name "colours" (Val.obj base)
  | some bg =>
    let exp_rgb := hex_to_rgb bg
    match dominant with
    | [] => report.add zone.name "colours" (Val.obj base)
    | top :: _ =>
      let actual_rgb : RGB := (top.r, top.g, top.b)
      let distSq := (rgbDistSq exp_rgb actual_rgb).toNat
      let passed := decide (distSq < 400)
      let data := base ++
        [("expected_bg", Val.str bg), ("actual_bg", Val.str top.hexStr),
         ("distance", Val.num (sqrtRound1 distSq)), ("pass", Val.bool passed)]
      let r1 := if passed then report.record_pass zone.name else report.record_fail zone.name
      r1.add zone.name "colours" (Val.obj data)

def coloursRun : TechRun := fun env zones report _args =>
  Except.ok (zones.foldl (fun r z => coloursStep env z r) report)

/-! ## Technique: compare (techniques/compare.py) -/

def DIFF_THRESHOLD : Nat := 20

/-- Pixels of two same-sized buffers within distance 20 of each other
(`diffs <= 20` iff squared distance ≤ 400). -/
def matchCount (a b : Img) : Nat :=
  ((List.range a.height).map (fun y =>
    ((List.range a.width).filter (fun x =>
      rgbDistSq (a.pix y x) (b.pix y x) ≤ 400)).length)).sum

/-- The per-zone body of `compare.run`; returns the updated
(total_match, total_pixels, report) accumulator.  Writing the green/red
diff image is an external side effect; only its path enters the report. -/
def compareStep (env : Env) (ref_img : Img) (tmp_dir : String) (zone : ZoneImage)
    (acc : Nat × Nat × Report) : Nat × Nat × Report :=
  let b := zone.bounds
  let ref_crop := ref_img.crop b.1 b.2.1 b.2.2.1 b.2.2.2
  let cur_crop := zone.image
  let ref_crop :=
    if ref_crop.width = cur_crop.width ∧ ref_crop.height = cur_crop.height then ref_crop
    else env.resize ref_crop cur_crop.width cur_crop.height
  let match_count := matchCount ref_crop cur_crop
  let pixel_count := ref_crop.height * ref_crop.width
  let mismatch_pct := round1 ((1 - (match_count : ℚ) / (max pixel_count 1 : Nat)) * 100)
  let diff_path := tmp_dir ++ "/" ++ zone.name ++ "_diff.png"
  let r1 := acc.2.2.add zone.name "compare"
    (Val.obj [("mismatch_pct", Val.num mismatch_pct), ("diff_image", Val.str diff_path)])
  (acc.1 + match_count, acc.2.1 + pixel_count, r1)

/-- `compare.run`: missing `--ref` writes the error payload for every zone;
otherwise per-zone mismatch percentages plus the `_overall` aggregate. -/
def compareRun : TechRun := fun env zones report args =>
  if ¬ hasRef args then
    Except.ok (zones.foldl (fun r z => r.add z.name "compare" refRequiredErr) report)
  else
    match env.loadImage (args.ref.getD "") with
    | none => Except.error ("FileNotFoundError: " ++ args.ref.getD "")
    | some ref_img =>
      let acc := zones.foldl (fun a z => compareStep env ref_img args.tmp_dir z a)
        (0, 0, report)
      if acc.2.1 > 0 then
        let overall := round1 ((1 - (acc.1 : ℚ) / acc.2.1) * 100)
        Except.ok (acc.2.2.add "_overall" "compare" (Val.obj [("mismatch_pct", Val.num overall)]))
      else Except.ok acc.2.2

/-! ## Technique: zones (techniques/zones.py) -/

/-- The per-zone body of `zones.run`: save the crop (external side effect)
and record its path and dimensions. -/
def zonesStep (args : Args) (z : ZoneImage) (r : Report) : Report :=
  let path := args.tmp_dir ++ "/" ++ z.name ++ ".png"
  r.add z.name "zones"
    (Val.obj [("file", Val.str path), ("width", Val.num z.image.width),
              ("height", Val.num z.image.height)])

def zonesRun : TechRun := fun _env zones report args =>
  Except.ok (zones.foldl (fun r z => zonesStep args z r) report)

/-! ## Technique: ocr (techniques/ocr.py) -/

/-- `ocr.run`: a missing pytesseract yields an error payload per zone; a
per-zone engine failure is caught into an error payload; otherwise words
with confidence > 40 and non-empty stripped text are reported. -/
def ocrRun : TechRun := fun env zones report _args =>
  if ¬ env.pytesseract then
    Except.ok (zones.foldl (fun r z =>
      r.add z.name "ocr" (Val.obj [("error", Val.str "pytesseract not installed")])) report)
  else
    Except.ok (zones.foldl (fun r z =>
      match env.ocrData z.image with
      | Except.error e =>
        r.add z.name "ocr" (Val.obj [("error", Val.str ("tesseract failed: " ++ e))])
      | Except.ok words =>
        let kept := words.filterMap (fun wd =>
          let t := String.mk (stripCh wd.text.toList)
          if wd.conf > 40 ∧ t ≠ "" then some (t, wd) else none)
        let texts := kept.map (fun tw => Val.str tw.1)
        let detail := kept.map (fun tw =>
          Val.obj [("text", Val.str tw.1), ("x", Val.num tw.2.x), ("y", Val.num tw.2.y),
                   ("w", Val.num tw.2.w), ("h", Val.num tw.2.h),
                   ("confidence", Val.num tw.2.conf)])
        r.add z.name "ocr" (Val.obj [("texts", Val.arr texts), ("detail", Val.arr detail)]))
      report)

/-! ## Technique: llm_vision (techniques/llm_vision.py) -/

def DEFAULT_PROMPT : String := "OCR this image. Return only the text you see, nothing else."

/-- Python `a or b` for falsy strings ("" and None are falsy). -/
def orFalsy (a : Option String) (b : String) : String :=
  match a with
  | some s => if s = "" then b else s
  | none => b

def visionDefaultUrl (provider : String) : String :=
  if provider = "groq" then "https://api.groq.com/openai/v1"
  else if provider = "mistral" then "https://api.mistral.ai/v1"
  else if provider = "openai" then "https://api.openai.com/v1"
  else ""

def visionDefaultModel (provider : String) : String :=
  if provider = "groq" then "meta-llama/llama-4-maverick-17b-128e-instruct"
  else if provider = "mistral" then "mistral-medium-2505"
  else if provider = "openai" then "gpt-4o-mini"
  else ""

/-- `llm_vision._resolve_provider` (env lookups are in `env.envVar`). -/
def visionResolveProvider (env : Env) (provider : String) (explicit_key : Option String) :
    String × String × String :=
  let p := provider.toUpper
  let api_key := orFalsy explicit_key
    (orFalsy (env.envVar (p ++ "_API_KEY")) (orFalsy (env.envVar "GUX_API_KEY") ""))
  let api_url := orFalsy (env.envVar (p ++ "_API_URL")) (visionDefaultUrl provider)
  let model := orFalsy (env.envVar (p ++ "_MODEL")) (visionDefaultModel provider)
  (api_key, api_url, model)

/-- `llm_vision.run`: `--list-models` without a key calls `sys.exit(1)`
(a raised SystemExit); missing key/url/model print to stderr and return
without touching the report; otherwise every zone gets the (exception-safe)
vision response recorded.  Network and ImportError failures inside
`_call_vision` are caught there and returned as `error: ...` strings, which
`env.llmVision` models. -/
def llmVisionRun : TechRun := fun env zones report args =>
  let provider := (orFalsy args.provider "groq").toLower
  let resolved := visionResolveProvider env provider args.api_key
  let api_key := resolved.1
  let api_url := resolved.2.1
  let model := resolved.2.2
  if args.list_models then
    if api_key = "" then Except.error "SystemExit: 1"
    else Except.ok report
  else if api_key = "" then Except.ok report
  else if api_url = "" then Except.ok report
  else if model = "" then Except.ok report
  else
    let user_prompt := orFalsy args.prompt DEFAULT_PROMPT
    let user_prompt :=
      if args.prime_rfc then
        "Here is the GUX specification language RFC so you understand " ++
        "what a GUX zone is and what we are trying to verify:\n\n" ++ env.rfc ++
        "\n\nNow, here is a cropped zone image from a screenshot.\n" ++ user_prompt
      else user_prompt
    Except.ok (zones.foldl (fun r z =>
      let result := env.llmVision api_key api_url model z.image user_prompt
      r.add z.name "llm_vision"
        (Val.obj [("text", Val.str result), ("model", Val.str model),
                  ("provider", Val.str provider)])) report)

/-! ## Registry and the composite technique (registry.py, techniques/all.py) -/

/-- The technique names the registry discovers (one per module under
`gux_checker/techniques/`; `pkgutil.iter_modules` yields modules in sorted
order and each defines one `technique`). -/
def discoveredNames : List String :=
  ["all", "census", "census-diff", "colours", "compare", "lines",
   "llm_vision", "ocr", "regions", "verify", "zones"]

/-- `SKIP` in all.py: techniques never run automatically. -/
def SKIP : List String := ["all", "verify", "ocr", "compare"]

/-- `sorted(all_techniques().items())` — iteration order of the composite. -/
def sortedTechNames : List String := pySorted strLe discoveredNames

/-- The registry's name → run-function binding for every technique the
composite can reach.  `"all"` and `"verify"` are in `SKIP`, so the
composite filters them before lookup; they are bound to the identity here
to break the definitional knot (`all` is the composite itself, and
`verify` runs the composite first and then only performs external LLM I/O
that never writes to the report). -/
def techRunOf : String → TechRun
  | "census" => censusRun
  | "census-diff" => censusDiffRun
  | "colours" => coloursRun
  | "compare" => compareRun
  | "lines" => linesRun
  | "llm_vision" => llmVisionRun
  | "ocr" => ocrRun
  | "regions" => regionsRun
  | "zones" => zonesRun
  | _ => fun _ _ r _ => Except.ok r

/-- The loop of `all.run`, over an explicit name list: skip `SKIP` members,
skip `census-diff` without `--ref`, and execute the rest in order with no
exception handler — a technique failure propagates. -/
def allRunGo (techOf : String → TechRun) (env : Env) (zones : List ZoneImage)
    (args : Args) (has_ref : Bool) : List String → Report → Except String Report
  | [], r => Except.ok r
  | name :: rest, r =>
    if name ∈ SKIP then allRunGo techOf env zones args has_ref rest r
    else if name = "census-diff" ∧ ¬ has_ref then allRunGo techOf env zones args has_ref rest r
    else
      match techOf name env zones r args with
      | Except.ok r' => allRunGo techOf env zones args has_ref rest r'
      | Except.error e => Except.error e

/-- `all.run`: fan out over the registered techniques in alphabetical
order. -/
def allRun : TechRun := fun env zones report args =>
  allRunGo techRunOf env zones args (hasRef args) sortedTechNames report

/-- Plain sequential execution of a list of techniques by name — the
specification-level description of a composite run. -/
def seqRun (techOf : String → TechRun) (env : Env) (zones : List ZoneImage)
    (args : Args) : List String → Report → Except String Report
  | [], r => Except.ok r
  | name :: rest, r =>
    match techOf name env zones r args with
    | Except.ok r' => seqRun techOf env zones args rest r'
    | Except.error e => Except.error e

/-- The names the composite actually invokes, in order. -/
def selectedTechs (has_ref : Bool) : List String :=
  sortedTechNames.filter (fun n =>
    decide (¬ n ∈ SKIP) && (decide (n ≠ "census-diff") || has_ref))

/-- The invoked-technique set as claim C2 words it: registered minus OCR,
remote-verification and the composite itself, minus the
reference-requiring techniques only when no reference was supplied. -/
def claimSelectedTechs (has_ref : Bool) : List String :=
  sortedTechNames.filter (fun n =>
    decide (¬ n ∈ (["all", "verify", "ocr"] : List String)) &&
    (decide (¬ n ∈ (["census-diff", "compare"] : List String)) || has_ref))

/-! ## Verification-layer definitions -/

/-- The technique has recorded some payload for the zone. -/
def Present (r : Report) (zone_name technique_name : String) : Prop :=
  (r.getTech zone_name technique_name).isSome = true

/-- A single-colour image of the given extent. -/
def solidImg (w h : Nat) (c : RGB) : Img := { width := w, height := h, pix := fun _ _ => c }

/-- A 2×2 all-white zone carrying only a non-blank assertion. -/
def zBlank : ZoneImage :=
  { name := "z", bounds := (0, 0, 2, 2), image := solidImg 2 2 (255, 255, 255),
    assertions := some { non_blank := true } }

/-- A 1×1 zone (below the 2px minimum) carrying a non-blank assertion. -/
def zTiny : ZoneImage :=
  { name := "t", bounds := (0, 0, 1, 1), image := solidImg 1 1 (255, 255, 255),
    assertions := some { non_blank := true } }

/-- An environment with no optional capabilities and no readable files. -/
def envBare : Env :=
  { entropy := 0, sklearn := false, kmeans := fun _ _ _ => [],
    loadImage := fun _ => none, resize := fun i _ _ => i,
    pytesseract := false, ocrData := fun _ => Except.error "unavailable",
    openaiLib := false, envVar := fun _ => none,
    llmVision := fun _ _ _ _ _ => "", rfc := "" }

/-- CLI options naming a reference image (which `envBare` cannot open). -/
def argsRef : Args := { ref := some "ref.png" }

/-- CLI options with no reference image. -/
def argsPlain : Args := { }

/-- A scan line with a 5-pixel white run followed by a 6-pixel black run
(one colour boundary, at index 5). -/
def cexLine : List RGB :=
  List.replicate 5 (255, 255, 255) ++ List.replicate 6 (0, 0, 0)

/-- A .gux text with one bounded zone and one zone lacking `Bounds(...)`. -/
def gw : String :=
  let sq := String.singleton squote
  "Zone(" ++ sq ++ "a" ++ sq ++ ", bounds: Bounds(1, 2, 3, 4)), Zone(" ++
    sq ++ "b" ++ sq ++ ", x)"

/-! ## Shared lemmas: association lists and the Report -/

theorem getAssoc_setAssoc_self {β : Type} (k : String) (v : β) (l : List (String × β)) :
    getAssoc k (setAssoc k v l) = some v := by
  induction l with
  | nil => simp [setAssoc, getAssoc]
  | cons kv rest ih =>
    by_cases h : kv.1 = k
    · simp [setAssoc, getAssoc, h]
    · simp [setAssoc, getAssoc, h, ih]

theorem getAssoc_setAssoc_ne {β : Type} {k k' : String} (h : k' ≠ k) (v : β)
    (l : List (String × β)) : getAssoc k' (setAssoc k v l) = getAssoc k' l := by
  induction l with
  | nil => simp [setAssoc, getAssoc, Ne.symm h]
  | cons kv rest ih =>
    by_cases hk : kv.1 = k
    · subst hk
      simp [setAssoc, getAssoc, h, Ne.symm h]
    · simp [setAssoc, getAssoc, hk, ih]

theorem getAssoc_mapAssoc_self {β : Type} (k : String) (f : β → β) (l : List (String × β)) :
    getAssoc k (mapAssoc k f l) = (getAssoc k l).map f := by
  induction l with
  | nil => simp [mapAssoc, getAssoc]
  | cons kv rest ih =>
    by_cases h : kv.1 = k
    · simp [mapAssoc, getAssoc, h]
    · simp [mapAssoc, getAssoc, h, ih]

theorem getAssoc_mapAssoc_ne {β : Type} {k k' : String} (h : k' ≠ k) (f : β → β)
    (l : List (String × β)) : getAssoc k' (mapAssoc k f l) = getAssoc k' l := by
  induction l with
  | nil => simp [mapAssoc, getAssoc]
  | cons kv rest ih =>
    by_cases hk : kv.1 = k
    · subst hk
      simp [mapAssoc, getAssoc, Ne.symm h, ih]
    · by_cases hk' : kv.1 = k'
      · simp [mapAssoc, getAssoc, hk, hk', h]
      · simp [mapAssoc, getAssoc, hk, hk', ih]

theorem getAssoc_append {β : Type} (k : String) (l₁ l₂ : List (String × β)) :
    getAssoc k (l₁ ++ l₂) =
      match getAssoc k l₁ with
      | some v => some v
      | none => getAssoc k l₂ := by
  induction l₁ with
  | nil => simp [getAssoc]
  | cons kv rest ih =>
    by_cases h : kv.1 = k
    · simp [getAssoc, h]
    · simp [getAssoc, h, ih]

theorem hasKey_eq_isSome {β : Type} (k : String) (l : List (String × β)) :
    hasKey k l = (getAssoc k l).isSome := by
  induction l with
  | nil => simp [hasKey, getAssoc]
  | cons kv rest ih =>
    by_cases h : kv.1 = k
    · simp [hasKey, getAssoc, h]
    · simp [hasKey, getAssoc, h] at ih ⊢
      exact ih

theorem getTech_add_self (r : Report) (zn t : String) (v : Val) :
    (r.add zn t v).getTech zn t = some v := by
  show ((getAssoc zn ((r.add zn t v).zones)).bind fun e => getAssoc t e.techniques) = some v
  cases hk : hasKey zn r.zones with
  | true =>
    have hs : (getAssoc zn r.zones).isSome = true := by rw [← hasKey_eq_isSome, hk]
    obtain ⟨e, he⟩ := Option.isSome_iff_exists.mp hs
    simp only [Report.add, hk, if_true]
    rw [getAssoc_mapAssoc_self, he]
    simp [getAssoc_setAssoc_self]
  | false =>
    have hnone : getAssoc zn r.zones = none := by
      have hs := hasKey_eq_isSome zn r.zones
      rw [hk] at hs
      cases hg : getAssoc zn r.zones with
      | none => rfl
      | some e => rw [hg] at hs; simp at hs
    simp only [Report.add, hk, Bool.false_eq_true, if_false]
    rw [getAssoc_mapAssoc_self, getAssoc_append, hnone]
    simp [getAssoc, getAssoc_setAssoc_self]

theorem getTech_add_ne (r : Report) {zn t zn' t' : String} (v : Val)
    (h : zn' ≠ zn ∨ t' ≠ t) :
    (r.add zn t v).getTech zn' t' = r.getTech zn' t' := by
  show ((getAssoc zn' ((r.add zn t v).zones)).bind fun e => getAssoc t' e.techniques) = _
  by_cases hzn : zn' = zn
  · subst hzn
    have ht : t' ≠ t := h.resolve_left (by simp)
    cases hk : hasKey zn' r.zones with
    | true =>
      have hs : (getAssoc zn' r.zones).isSome = true := by rw [← hasKey_eq_isSome, hk]
      obtain ⟨e, he⟩ := Option.isSome_iff_exists.mp hs
      simp only [Report.add, hk, if_true]
      rw [getAssoc_mapAssoc_self, he]
      simp [Report.getTech, he, getAssoc_setAssoc_ne ht]
    | false =>
      have hnone : getAssoc zn' r.zones = none := by
        have hs := hasKey_eq_isSome zn' r.zones
        rw [hk] at hs
        cases hg : getAssoc zn' r.zones with
        | none => rfl
        | some e => rw [hg] at hs; simp at hs
      simp only [Report.add, hk, Bool.false_eq_true, if_false]
      rw [getAssoc_mapAssoc_self, getAssoc_append, hnone]
      simp [Report.getTech, hnone, getAssoc, getAssoc_setAssoc_ne ht, Ne.symm ht]
  · cases hk : hasKey zn r.zones with
    | true =>
      simp only [Report.add, hk, if_true]
      rw [getAssoc_mapAssoc_ne hzn]
      rfl
    | false =>
      simp only [Report.add, hk, Bool.false_eq_true, if_false]
      rw [getAssoc_mapAssoc_ne hzn, getAssoc_append]
      cases hg : getAssoc zn' r.zones with
      | some e => simp [Report.getTech, hg]
      | none => simp [Report.getTech, hg, getAssoc, hzn]

theorem add_pass_count (r : Report) (zn t : String) (v : Val) :
    (r.add zn t v).pass_count = r.pass_count := rfl

theorem add_fail_count (r : Report) (zn t : String) (v : Val) :
    (r.add zn t v).fail_count = r.fail_count := rfl

theorem record_pass_getTech (r : Report) (zn zn' t' : String) :
    (r.record_pass zn).getTech zn' t' = r.getTech zn' t' := rfl

theorem record_fail_getTech (r : Report) (zn zn' t' : String) :
    (r.record_fail zn).getTech zn' t' = r.getTech zn' t' := rfl

theorem present_add {r : Report} {zn t : String} (zn' t' : String) (v : Val)
    (h : Present r zn t) : Present (r.add zn' t' v) zn t := by
  unfold Present at h ⊢
  by_cases hsame : zn = zn' ∧ t = t'
  · obtain ⟨h1, h2⟩ := hsame
    subst h1; subst h2
    rw [getTech_add_self]
    rfl
  · rw [getTech_add_ne]
    · exact h
    · rcases Decidable.not_and_iff_or_not.mp hsame with h1 | h2
      · exact Or.inl h1
      · exact Or.inr h2

theorem present_add_self (r : Report) (zn t : String) (v : Val) :
    Present (r.add zn t v) zn t := by
  unfold Present
  rw [getTech_add_self]
  rfl

theorem getTech_eq_of_zones {r r' : Report} (h : r.zones = r'.zones) (zn t : String) :
    r.getTech zn t = r'.getTech zn t := by
  unfold Report.getTech
  rw [h]

theorem present_of_zones_eq {r r' : Report} (h : r.zones = r'.zones) {zn t : String}
    (hp : Present r zn t) : Present r' zn t := by
  unfold Present at hp ⊢
  rw [← getTech_eq_of_zones h]
  exact hp

theorem record_pass_zones (r : Report) (n : String) : (r.record_pass n).zones = r.zones := rfl

theorem record_fail_zones (r : Report) (n : String) : (r.record_fail n).zones = r.zones := rfl

/-- A projection (e.g. a counter) untouched by every step is untouched by
the fold. -/
theorem foldl_proj_const {α : Type} (f : Report → Nat) (step : Report → α → Report)
    (h : ∀ r a, f (step r a) = f r) :
    ∀ (l : List α) (r : Report), f (l.foldl step r) = f r := by
  intro l
  induction l with
  | nil => intro r; rfl
  | cons a rest ih => intro r; rw [List.foldl_cons, ih, h]

/-- Folding `add` of one fixed payload over the zone list: every processed
zone ends with exactly that payload; others are untouched. -/
theorem foldl_add_getTech (T : String) (p : Val) :
    ∀ (zones : List ZoneImage) (r : Report) (zn : String),
      ((zones.foldl (fun r z => r.add z.name T p) r).getTech zn T) =
        if zn ∈ zones.map (fun z => z.name) then some p else r.getTech zn T := by
  intro zones
  induction zones with
  | nil => intro r zn; simp
  | cons z rest ih =>
    intro r zn
    rw [List.foldl_cons, ih]
    by_cases hmem : zn ∈ rest.map (fun z => z.name)
    · simp [hmem]
    · by_cases hz : zn = z.name
      · subst hz
        simp [hmem, getTech_add_self]
      · simp [hmem, hz, getTech_add_ne r p (Or.inl hz)]

/-- A fold whose steps preserve payload presence preserves it. -/
theorem foldl_present_mono {α : Type} (step : Report → α → Report)
    (h : ∀ r a zn t, Present r zn t → Present (step r a) zn t) :
    ∀ (l : List α) (r : Report) (zn t : String),
      Present r zn t → Present (l.foldl step r) zn t := by
  intro l
  induction l with
  | nil => intro r zn t hp; exact hp
  | cons a rest ih =>
    intro r zn t hp
    rw [List.foldl_cons]
    exact ih _ _ _ (h r a zn t hp)

/-- A fold over the zone list whose step always writes technique `T` for
the processed zone, and preserves presence, leaves `T` present for every
zone of the list. -/
theorem foldl_present_writes (T : String) (step : Report → ZoneImage → Report)
    (hw : ∀ r z, Present (step r z) z.name T)
    (hm : ∀ r z zn t, Present r zn t → Present (step r z) zn t) :
    ∀ (zones : List ZoneImage) (r : Report) (z : ZoneImage),
      z ∈ zones → Present (zones.foldl step r) z.name T := by
  intro zones
  induction zones with
  | nil => intro r z hz; cases hz
  | cons z0 rest ih =>
    intro r z hz
    rw [List.foldl_cons]
    rcases List.mem_cons.mp hz with h0 | hrest
    · subst h0
      exact foldl_present_mono step hm rest _ _ _ (hw r z)
    · exact ih _ _ hrest

/-! ### Per-technique step facts -/

theorem check_assertions_zones (z : ZoneImage) (ha va : ℚ) (r : Report) :
    (check_assertions z ha va r).2.zones = r.zones := by
  unfold check_assertions
  cases z.assertions with
  | none => rfl
  | some a =>
    dsimp only
    repeat' split
    all_goals rfl

theorem linesStep_present (z : ZoneImage) (r : Report) (zn t : String)
    (hp : Present r zn t) : Present (linesStep z r) zn t := by
  unfold linesStep
  by_cases hs : z.image.height < 2 ∨ z.image.width < 2
  · simp only [hs, if_true]
    exact present_add _ _ _ hp
  · simp only [hs, if_false]
    exact present_add _ _ _
      (present_of_zones_eq (check_assertions_zones z _ _ r).symm hp)

theorem linesStep_writes (z : ZoneImage) (r : Report) :
    Present (linesStep z r) z.name "lines" := by
  unfold linesStep
  by_cases hs : z.image.height < 2 ∨ z.image.width < 2
  · simp only [hs, if_true]
    exact present_add_self _ _ _ _
  · simp only [hs, if_false]
    exact present_add_self _ _ _ _

theorem censusStep_present (env : Env) (z : ZoneImage) (r : Report) (zn t : String)
    (hp : Present r zn t) : Present (censusStep env z r) zn t :=
  present_add _ _ _ hp

theorem censusStep_writes (env : Env) (z : ZoneImage) (r : Report) :
    Present (censusStep env z r) z.name "census" :=
  present_add_self _ _ _ _

theorem regionsStep_present (z : ZoneImage) (r : Report) (zn t : String)
    (hp : Present r zn t) : Present (regionsStep z r) zn t := by
  unfold regionsStep
  by_cases hs : z.image.height < 10 ∨ z.image.width < 10
  · simp only [hs, if_true]
    exact present_add _ _ _ hp
  · simp only [hs, if_false]
    exact present_add _ _ _ hp

theorem regionsStep_writes (z : ZoneImage) (r : Report) :
    Present (regionsStep z r) z.name "regions" := by
  unfold regionsStep
  by_cases hs : z.image.height < 10 ∨ z.image.width < 10
  · simp only [hs, if_true]
    exact present_add_self _ _ _ _
  · simp only [hs, if_false]
    exact present_add_self _ _ _ _

theorem coloursStep_present (env : Env) (z : ZoneImage) (r : Report) (zn t : String)
    (hp : Present r zn t) : Present (coloursStep env z r) zn t := by
  unfold coloursStep
  cases z.expected_bg with
  | none => exact present_add _ _ _ hp
  | some bg =>
    cases extract_dominant env z.image 5 5000 with
    | nil => exact present_add _ _ _ hp
    | cons top rest =>
      by_cases hd : decide ((rgbDistSq (hex_to_rgb bg) (top.r, top.g, top.b)).toNat < 400) = true
      · simp only [hd]
        exact present_add _ _ _ (present_of_zones_eq (by rfl) hp)
      · simp only [hd]
        exact present_add _ _ _ (present_of_zones_eq (by rfl) hp)

theorem coloursStep_writes (env : Env) (z : ZoneImage) (r : Report) :
    Present (coloursStep env z r) z.name "colours" := by
  unfold coloursStep
  cases z.expected_bg with
  | none => exact present_add_self _ _ _ _
  | some bg =>
    cases extract_dominant env z.image 5 5000 with
    | nil => exact present_add_self _ _ _ _
    | cons top rest => exact present_add_self _ _ _ _

theorem censusDiffStep_present (env : Env) (ref : Img) (z : ZoneImage) (r : Report)
    (zn t : String) (hp : Present r zn t) : Present (censusDiffStep env ref z r) zn t := by
  unfold censusDiffStep
  dsimp only
  split
  · exact present_of_zones_eq (record_fail_zones _ _).symm (present_add _ _ _ hp)
  · exact present_of_zones_eq (record_pass_zones _ _).symm (present_add _ _ _ hp)

theorem censusDiffStep_writes (env : Env) (ref : Img) (z : ZoneImage) (r : Report) :
    Present (censusDiffStep env ref z r) z.name "census-diff" := by
  unfold censusDiffStep
  dsimp only
  split
  · exact present_of_zones_eq (record_fail_zones _ _).symm (present_add_self _ _ _ _)
  · exact present_of_zones_eq (record_pass_zones _ _).symm (present_add_self _ _ _ _)

theorem zonesStep_present (args : Args) (z : ZoneImage) (r : Report) (zn t : String)
    (hp : Present r zn t) : Present (zonesStep args z r) zn t :=
  present_add _ _ _ hp

theorem zonesStep_writes (args : Args) (z : ZoneImage) (r : Report) :
    Present (zonesStep args z r) z.name "zones" :=
  present_add_self _ _ _ _

/-- One successful step of a sequential composite run. -/
theorem seqRun_cons_ok {techOf : String → TechRun} {env : Env} {zones : List ZoneImage}
    {args : Args} {n : String} {rest : List String} {r r' : Report}
    (h : techOf n env zones r args = Except.ok r') :
    seqRun techOf env zones args (n :: rest) r = seqRun techOf env zones args rest r' := by
  show (match techOf n env zones r args with
        | Except.ok r' => seqRun techOf env zones args rest r'
        | Except.error e => Except.error e) = _
  rw [h]

/-- `llm_vision.run` without `--list-models` (the composite's argparse
namespace has no such flag) always returns normally and never erases a
recorded payload. -/
theorem llmVisionRun_ok (env : Env) (zones : List ZoneImage) (r : Report) (args : Args)
    (h : args.list_models = false) :
    ∃ r', llmVisionRun env zones r args = Except.ok r' ∧
      ∀ zn t, Present r zn t → Present r' zn t := by
  unfold llmVisionRun
  simp only [h, Bool.false_eq_true, if_false]
  split
  · exact ⟨r, rfl, fun _ _ hp => hp⟩
  · split
    · exact ⟨r, rfl, fun _ _ hp => hp⟩
    · split
      · exact ⟨r, rfl, fun _ _ hp => hp⟩
      · refine ⟨_, rfl, fun zn t hp => ?_⟩
        exact foldl_present_mono _ (fun r z zn t hp => present_add _ _ _ hp) zones r zn t hp

/-! ### The composite loop is filter-then-run -/

/-- The skip logic of `all.run`'s loop is exactly a filter on the name
list: drop `SKIP` members and, without a reference, `census-diff`. -/
theorem allRunGo_eq_seqRun (techOf : String → TechRun) (env : Env)
    (zones : List ZoneImage) (args : Args) (hr : Bool) :
    ∀ (names : List String) (r : Report),
      allRunGo techOf env zones args hr names r =
        seqRun techOf env zones args
          (names.filter (fun n => decide (¬ n ∈ SKIP) && (decide (n ≠ "census-diff") || hr))) r := by
  intro names
  induction names with
  | nil => intro r; rfl
  | cons n rest ih =>
    intro r
    have hstep : allRunGo techOf env zones args hr (n :: rest) r =
        (if n ∈ SKIP then allRunGo techOf env zones args hr rest r
         else if n = "census-diff" ∧ ¬ hr = true then allRunGo techOf env zones args hr rest r
         else
           match techOf n env zones r args with
           | Except.ok r' => allRunGo techOf env zones args hr rest r'
           | Except.error e => Except.error e) := rfl
    by_cases h1 : n ∈ SKIP
    · rw [hstep, if_pos h1, ih]
      congr 1
      simp [List.filter_cons, h1]
    · by_cases h2 : n = "census-diff" ∧ ¬ hr = true
      · rw [hstep, if_neg h1, if_pos h2, ih]
        congr 1
        obtain ⟨hn, hhr⟩ := h2
        have hfalse : hr = false := by
          cases hr with
          | false => rfl
          | true => exact absurd rfl hhr
        simp [List.filter_cons, h1, hn, hfalse]
      · have hfilter : (decide (¬ n ∈ SKIP) && (decide (n ≠ "census-diff") || hr)) = true := by
          rcases Decidable.not_and_iff_or_not.mp h2 with hn | hhr
          · simp [h1, hn]
          · have : hr = true := by
              cases hr with
              | true => rfl
              | false => exact absurd (by simp) hhr
            simp [h1, this]
        rw [hstep, if_neg h1, if_neg h2, List.filter_cons, if_pos hfilter]
        have hseq : seqRun techOf env zones args
            (n :: rest.filter (fun n => decide (¬ n ∈ SKIP) && (decide (n ≠ "census-diff") || hr))) r =
            (match techOf n env zones r args with
             | Except.ok r' => seqRun techOf env zones args
                 (rest.filter (fun n => decide (¬ n ∈ SKIP) && (decide (n ≠ "census-diff") || hr))) r'
             | Except.error e => Except.error e) := rfl
        rw [hseq]
        cases techOf n env zones r args with
        | ok r' => exact ih r'
        | error e => rfl

/-! ### `_find_runs` versus the maximal-run decomposition -/

/-- The filter `_find_runs` applies to a maximal run. -/
def segKeep (s : Seg) : Option Run :=
  if 5 < s.width then some s.toRun else none

theorem findRunsGo_eq_filterMap :
    ∀ (rest : List RGB) (prev : RGB) (i run_start : Nat) (cs : List RGB),
      run_start < i →
      findRunsGo prev rest i run_start cs =
        (segmentsGo prev rest i run_start cs).filterMap segKeep := by
  intro rest
  induction rest with
  | nil =>
    intro prev i run_start cs h
    have hw : (Seg.mk run_start (i - 1) cs).width = i - run_start := by
      show i - 1 + 1 - run_start = i - run_start
      omega
    unfold findRunsGo segmentsGo
    rw [List.filterMap_cons]
    by_cases h5 : 5 < i - run_start
    · rw [show segKeep (Seg.mk run_start (i - 1) cs) = some (Seg.toRun ⟨run_start, i - 1, cs⟩) by
        unfold segKeep; rw [hw, if_pos h5]]
      rw [if_pos h5]
      rfl
    · rw [show segKeep (Seg.mk run_start (i - 1) cs) = none by
        unfold segKeep; rw [hw, if_neg h5]]
      rw [if_neg h5]
      rfl
  | cons curr rest' ih =>
    intro prev i run_start cs h
    unfold findRunsGo segmentsGo
    by_cases hb : rgbDistSq prev curr > 900
    · simp only [hb, if_true]
      have hw : (Seg.mk run_start (i - 1) cs).width = i - run_start := by
        show i - 1 + 1 - run_start = i - run_start
        omega
      rw [List.filterMap_cons]
      by_cases h5 : 5 < i - run_start
      · rw [show segKeep (Seg.mk run_start (i - 1) cs) = some (Seg.toRun ⟨run_start, i - 1, cs⟩) by
          unfold segKeep; rw [hw, if_pos h5]]
        rw [if_pos h5, ih curr (i + 1) i [curr] (Nat.lt_succ_self i)]
        rfl
      · rw [show segKeep (Seg.mk run_start (i - 1) cs) = none by
          unfold segKeep; rw [hw, if_neg h5]]
        rw [if_neg h5, ih curr (i + 1) i [curr] (Nat.lt_succ_self i)]
    · simp only [hb, if_false]
      exact ih curr (i + 1) run_start (cs ++ [curr]) (Nat.lt_succ_of_lt h)

theorem findRuns_eq_filterMap (line : List RGB) :
    findRuns line = (segments line).filterMap segKeep := by
  cases line with
  | nil => rfl
  | cons c0 rest =>
    unfold findRuns segments
    exact findRunsGo_eq_filterMap rest c0 1 0 [c0] Nat.zero_lt_one

/-- Model validation: the maximal runs partition the scan line — their
pixel lists concatenate back to it. -/
theorem segmentsGo_flatten :
    ∀ (rest : List RGB) (prev : RGB) (i run_start : Nat) (cs : List RGB),
      ((segmentsGo prev rest i run_start cs).map Seg.pixels).flatten = cs ++ rest := by
  intro rest
  induction rest with
  | nil => intro prev i rs cs; simp [segmentsGo]
  | cons curr rest' ih =>
    intro prev i rs cs
    unfold segmentsGo
    by_cases hb : rgbDistSq prev curr > 900
    · simp only [hb, if_true, List.map_cons, List.flatten_cons]
      rw [ih]
      rfl
    · simp only [hb, if_false]
      rw [ih]
      simp

theorem segments_flatten (line : List RGB) :
    ((segments line).map Seg.pixels).flatten = line := by
  cases line with
  | nil => rfl
  | cons c0 rest =>
    unfold segments
    rw [segmentsGo_flatten]
    rfl

/-! ## Claim theorems -/

/-- C8: the colour-distance function is symmetric, zero on equal inputs,
and is the signed-arithmetic Euclidean distance: `distance(black, white)`
exceeds 400 (unsigned-byte wraparound would give ≈97). -/
theorem c8_distance_properties :
    (∀ a b : RGB, rgb_distance a b = rgb_distance b a) ∧
    (∀ a : RGB, rgb_distance a a = 0) ∧
    400 < rgb_distance (0, 0, 0) (255, 255, 255) := by
  refine ⟨?_, ?_, ?_⟩
  · intro a b
    unfold rgb_distance
    have h : rgbDistSq a b = rgbDistSq b a := by unfold rgbDistSq; ring
    rw [h]
  · intro a
    unfold rgb_distance
    have h : rgbDistSq a a = 0 := by unfold rgbDistSq; ring
    rw [h]
    norm_num
  · unfold rgb_distance
    have h : rgbDistSq (0, 0, 0) (255, 255, 255) = 195075 := by norm_num [rgbDistSq]
    rw [h]
    have h400 : (400 : ℝ) < Real.sqrt 195075 := by
      rw [show ((400 : ℝ)) = Real.sqrt (400 ^ 2) by
        rw [Real.sqrt_sq (by norm_num)]]
      apply Real.sqrt_lt_sqrt (by norm_num)
      norm_num
    simpa using h400

/-- C3: parsing is total; a missing/malformed page-name marker yields
`"unknown"`, a missing viewport yields `(0,0)`, and no zone matches yield
an empty zone list (each failure degrades independently). -/
theorem c3_parse_defaults (text : String) :
    (extract_page_name text.toList = none → (parse_gux_string text).page_name = "unknown") ∧
    (extract_viewport text.toList = none → (parse_gux_string text).viewport = (0, 0)) ∧
    (zoneMatches text.toList = [] → (parse_gux_string text).zones = []) := by
  refine ⟨fun h => ?_, fun h => ?_, fun h => ?_⟩
  · unfold parse_gux_string
    dsimp only
    rw [h]
    rfl
  · unfold parse_gux_string
    dsimp only
    rw [h]
    rfl
  · unfold parse_gux_string extract_zones
    dsimp only
    rw [h]
    rfl

theorem c3_parse_defaults_witness :
    (parse_gux_string "no markers here").page_name = "unknown" ∧
    (parse_gux_string "no markers here").viewport = (0, 0) ∧
    (parse_gux_string "no markers here").zones = [] :=
  ⟨(c3_parse_defaults "no markers here").1 (by decide),
   (c3_parse_defaults "no markers here").2.1 (by decide),
   (c3_parse_defaults "no markers here").2.2 (by decide)⟩

/-- C4: a zone declaration is in the parsed result exactly when its
extracted block contains a `Bounds(...)` with four integers, and then it
carries those integers; blocks without bounds contribute nothing (and no
error — the parser is total). -/
theorem c4_bounds_filter (text : List Char) (z : GuxZone) :
    z ∈ extract_zones text ↔
      ∃ m ∈ zoneMatches text,
        extract_bounds (extract_block text m.1) = some z.bounds ∧
        z = zoneFromMatch text m.1 m.2 z.bounds := by
  unfold extract_zones
  rw [List.mem_filterMap]
  constructor
  · rintro ⟨m, hm, hf⟩
    rcases Option.map_eq_some'.mp hf with ⟨b, hb, hzb⟩
    subst hzb
    exact ⟨m, hm, hb, rfl⟩
  · rintro ⟨m, hm, hb, hz⟩
    exact ⟨m, hm, by rw [hb, Option.map_some', ← hz]⟩

theorem c4_bounds_filter_witness :
    zoneFromMatch gw.toList 0 "a" (1, 2, 3, 4) ∈ extract_zones gw.toList ∧
    (extract_zones gw.toList).map (fun z => (z.name, z.bounds)) = [("a", (1, 2, 3, 4))] := by
  constructor
  · exact (c4_bounds_filter gw.toList (zoneFromMatch gw.toList 0 "a" (1, 2, 3, 4))).mpr
      ⟨(0, "a"), by decide, by decide, rfl⟩
  · decide

/-- C9 counterexample: on a line with a maximal 5-pixel run (white) before
a boundary, the claim "runs of width ≥ 5 are included" fails — `_find_runs`
keeps only runs strictly wider than 5 pixels, so the white run is dropped
while the 6-pixel black run is kept. -/
theorem c9_width5_dropped :
    (∃ s ∈ segments cexLine, s.start = 0 ∧ 5 ≤ s.width) ∧
    (∀ r ∈ findRuns cexLine, r.start ≠ 0) ∧
    findRuns cexLine = [⟨5, 10, (0, 0, 0)⟩] := by decide

/-- C9 (amended): a maximal run is collected iff its width is at least 6
pixels (strictly more than 5); runs of width 5 or less are discarded. -/
theorem c9_run_width_filter (line : List RGB) (r : Run) :
    r ∈ findRuns line ↔ ∃ s ∈ segments line, 6 ≤ s.width ∧ r = s.toRun := by
  rw [findRuns_eq_filterMap, List.mem_filterMap]
  constructor
  · rintro ⟨s, hs, hk⟩
    unfold segKeep at hk
    by_cases h5 : 5 < s.width
    · rw [if_pos h5] at hk
      exact ⟨s, hs, by omega, (Option.some_inj.mp hk).symm⟩
    · rw [if_neg h5] at hk
      cases hk
  · rintro ⟨s, hs, h6, hr⟩
    refine ⟨s, hs, ?_⟩
    unfold segKeep
    rw [if_pos (by omega), hr]

theorem c9_run_width_filter_witness :
    (⟨5, 10, (0, 0, 0)⟩ : Run) ∈ findRuns cexLine :=
  (c9_run_width_filter cexLine ⟨5, 10, (0, 0, 0)⟩).mpr
    ⟨⟨5, 10, List.replicate 6 (0, 0, 0)⟩, by decide, by decide, by decide⟩

/-- C10: a crop under 2px in either dimension short-circuits the lines
technique to the `{h_avg_transitions: 0, v_avg_transitions: 0}` payload
with no assertion evaluation — even a non-blank assertion (which zero
transitions would fail) leaves both global counters unchanged. -/
theorem c10_small_crop_short_circuit (env : Env) (args : Args) (r : Report) (z : ZoneImage)
    (hsmall : z.image.height < 2 ∨ z.image.width < 2) :
    linesRun env [z] r args =
      Except.ok (r.add z.name "lines"
        (Val.obj [("h_avg_transitions", Val.num 0), ("v_avg_transitions", Val.num 0)])) ∧
    (r.add z.name "lines"
        (Val.obj [("h_avg_transitions", Val.num 0), ("v_avg_transitions", Val.num 0)])).pass_count
      = r.pass_count ∧
    (r.add z.name "lines"
        (Val.obj [("h_avg_transitions", Val.num 0), ("v_avg_transitions", Val.num 0)])).fail_count
      = r.fail_count := by
  refine ⟨?_, rfl, rfl⟩
  show Except.ok (linesStep z r) = _
  unfold linesStep
  rw [if_pos hsmall]

theorem c10_small_crop_short_circuit_witness :
    linesRun envBare [zTiny] Report.empty argsPlain =
      Except.ok (Report.empty.add "t" "lines"
        (Val.obj [("h_avg_transitions", Val.num 0), ("v_avg_transitions", Val.num 0)])) ∧
    (Report.empty.add "t" "lines"
        (Val.obj [("h_avg_transitions", Val.num 0), ("v_avg_transitions", Val.num 0)])).pass_count
      = Report.empty.pass_count ∧
    (Report.empty.add "t" "lines"
        (Val.obj [("h_avg_transitions", Val.num 0), ("v_avg_transitions", Val.num 0)])).fail_count
      = Report.empty.fail_count :=
  c10_small_crop_short_circuit envBare argsPlain Report.empty zTiny (Or.inl (by decide))

/-- C5: with a non-blank assertion, the lines technique on a crop at least
2px in each dimension evaluates the vertical check against the explicit
threshold or its default 1, records pass exactly when the (rounded)
vertical average reaches it, and evaluates a second independent horizontal
check exactly when an explicit horizontal threshold exists; each check
moves the matching global counter by one. -/
theorem c5_non_blank_vertical_check (env : Env) (args : Args) (r : Report)
    (z : ZoneImage) (a : GuxAssert)
    (hh : 2 ≤ z.image.height) (hw : 2 ≤ z.image.width)
    (ha : z.assertions = some a) (hnb : a.non_blank = true) :
    ∃ R, linesRun env [z] r args = Except.ok R ∧
      R.getTech z.name "lines" = some (Val.obj
        [("h_avg_transitions", Val.num (lineAverages z.image).1),
         ("v_avg_transitions", Val.num (lineAverages z.image).2),
         ("assertions", Val.arr
           (checkVal "min_transitions_v" (a.min_transitions_v.getD 1) (lineAverages z.image).2
              (decide (a.min_transitions_v.getD 1 ≤ (lineAverages z.image).2)) ::
            (match a.min_transitions_h with
             | some th => [checkVal "min_transitions_h" th (lineAverages z.image).1
                 (decide (th ≤ (lineAverages z.image).1))]
             | none => [])))]) ∧
      R.pass_count = r.pass_count +
        (if a.min_transitions_v.getD 1 ≤ (lineAverages z.image).2 then 1 else 0) +
        (match a.min_transitions_h with
         | some th => if th ≤ (lineAverages z.image).1 then 1 else 0
         | none => 0) ∧
      R.fail_count = r.fail_count +
        (if a.min_transitions_v.getD 1 ≤ (lineAverages z.image).2 then 0 else 1) +
        (match a.min_transitions_h with
         | some th => if th ≤ (lineAverages z.image).1 then 0 else 1
         | none => 0) := by
  have hns : ¬ (z.image.height < 2 ∨ z.image.width < 2) := by omega
  refine ⟨linesStep z r, rfl, ?_⟩
  unfold linesStep
  rw [if_neg hns]
  unfold check_assertions
  rw [ha]
  dsimp only
  rw [show (a.non_blank || a.min_transitions_v.isSome) = true by rw [hnb]; rfl]
  cases hmh : a.min_transitions_h with
  | none =>
    by_cases hv : a.min_transitions_v.getD 1 ≤ (lineAverages z.image).2
    · simp only [if_true, hv, decide_eq_true_eq, decide_True, hmh]
      refine ⟨?_, ?_, ?_⟩
      · rw [getTech_add_self]
        simp [hv]
      · simp [add_pass_count, Report.record_pass]
      · simp [add_fail_count, Report.record_pass]
    · simp only [if_true, hv, decide_eq_true_eq, decide_False, hmh]
      refine ⟨?_, ?_, ?_⟩
      · rw [getTech_add_self]
        simp [hv]
      · simp [add_pass_count, Report.record_fail]
      · simp [add_fail_count, Report.record_fail]
  | some th =>
    by_cases hv : a.min_transitions_v.getD 1 ≤ (lineAverages z.image).2 <;>
      by_cases hth : th ≤ (lineAverages z.image).1 <;>
      · simp only [if_true, hv, hth, decide_eq_true_eq, decide_True, decide_False, hmh]
        refine ⟨?_, ?_, ?_⟩
        · rw [getTech_add_self]
          simp [hv, hth]
        · simp [add_pass_count, Report.record_pass, Report.record_fail, hv, hth]
        · simp [add_fail_count, Report.record_pass, Report.record_fail, hv, hth]

theorem c5_non_blank_vertical_check_witness :
    ∃ R, linesRun envBare [zBlank] Report.empty argsPlain = Except.ok R ∧
      R.pass_count = 0 ∧ R.fail_count = 1 := by
  obtain ⟨R, hrun, hget, hpass, hfail⟩ :=
    c5_non_blank_vertical_check envBare argsPlain Report.empty zBlank { non_blank := true }
      (by decide) (by decide) rfl rfl
  have havg : lineAverages zBlank.image = (0, 0) := by
    norm_num [lineAverages, linspaceIdx, zBlank, solidImg, Img.row, Img.col, count_transitions,
      rgbDistSq, NUM_LINES, List.range_succ, round1, roundHalfEven]
  rw [havg] at hpass hfail
  refine ⟨R, hrun, ?_, ?_⟩
  · rw [hpass]
    norm_num [Report.empty]
  · rw [hfail]
    norm_num [Report.empty]

/-- C6: executing census-diff or compare with no reference image supplied
writes the structured `--ref required` error payload for every zone,
raises nothing, and leaves both global counters unchanged. -/
theorem c6_missing_ref_error_payload (env : Env) (zones : List ZoneImage) (r : Report)
    (args : Args) (h : hasRef args = false) :
    (∃ r1, censusDiffRun env zones r args = Except.ok r1 ∧
      (∀ z ∈ zones, r1.getTech z.name "census-diff" = some refRequiredErr) ∧
      r1.pass_count = r.pass_count ∧ r1.fail_count = r.fail_count) ∧
    (∃ r2, compareRun env zones r args = Except.ok r2 ∧
      (∀ z ∈ zones, r2.getTech z.name "compare" = some refRequiredErr) ∧
      r2.pass_count = r.pass_count ∧ r2.fail_count = r.fail_count) := by
  have hnot : ¬ hasRef args = true := by rw [h]; simp
  constructor
  · refine ⟨zones.foldl (fun r z => r.add z.name "census-diff" refRequiredErr) r, ?_, ?_, ?_, ?_⟩
    · unfold censusDiffRun
      rw [if_pos hnot]
    · intro z hz
      rw [foldl_add_getTech]
      rw [if_pos (List.mem_map_of_mem (fun z => z.name) hz)]
    · exact foldl_proj_const Report.pass_count
        (fun r z => r.add z.name "census-diff" refRequiredErr) (fun r a => rfl) zones r
    · exact foldl_proj_const Report.fail_count
        (fun r z => r.add z.name "census-diff" refRequiredErr) (fun r a => rfl) zones r
  · refine ⟨zones.foldl (fun r z => r.add z.name "compare" refRequiredErr) r, ?_, ?_, ?_, ?_⟩
    · unfold compareRun
      rw [if_pos hnot]
    · intro z hz
      rw [foldl_add_getTech]
      rw [if_pos (List.mem_map_of_mem (fun z => z.name) hz)]
    · exact foldl_proj_const Report.pass_count
        (fun r z => r.add z.name "compare" refRequiredErr) (fun r a => rfl) zones r
    · exact foldl_proj_const Report.fail_count
        (fun r z => r.add z.name "compare" refRequiredErr) (fun r a => rfl) zones r

theorem c6_missing_ref_error_payload_witness :
    (∃ r1, censusDiffRun envBare [zBlank] Report.empty argsPlain = Except.ok r1 ∧
      (∀ z ∈ [zBlank], r1.getTech z.name "census-diff" = some refRequiredErr) ∧
      r1.pass_count = Report.empty.pass_count ∧ r1.fail_count = Report.empty.fail_count) ∧
    (∃ r2, compareRun envBare [zBlank] Report.empty argsPlain = Except.ok r2 ∧
      (∀ z ∈ [zBlank], r2.getTech z.name "compare" = some refRequiredErr) ∧
      r2.pass_count = Report.empty.pass_count ∧ r2.fail_count = Report.empty.fail_count) :=
  c6_missing_ref_error_payload envBare [zBlank] Report.empty argsPlain rfl

/-- C7: the pixel sampling of the census and dominant-colour techniques is
driven by `default_rng(42)` — a fixed seed — so their results do not
depend on the ambient entropy an unseeded generator would draw: two
executions over the same crop and options are identical. -/
theorem c7_seeded_sampling_deterministic (env : Env) (e1 e2 : Nat)
    (zones : List ZoneImage) (r : Report) (args : Args) :
    censusRun { env with entropy := e1 } zones r args =
      censusRun { env with entropy := e2 } zones r args ∧
    coloursRun { env with entropy := e1 } zones r args =
      coloursRun { env with entropy := e2 } zones r args ∧
    censusDiffRun { env with entropy := e1 } zones r args =
      censusDiffRun { env with entropy := e2 } zones r args :=
  ⟨rfl, rfl, rfl⟩

/-- C1 counterexample: the composite installs no exception handler, so a
technique failure it does not anticipate — census-diff raising on an
unreadable reference image — propagates out of the composite run; no error
payload is recorded and the remaining techniques (colours, lines, …) never
execute over the zone. -/
theorem c1_failure_propagates :
    allRun envBare [zBlank] Report.empty argsRef =
      Except.error "FileNotFoundError: ref.png" := by
  rfl

/-- C1 (amended): failures the individual techniques anticipate are caught
inside them, and when no invoked technique raises — in particular the
reference image, when supplied, can be opened, and `--list-models` is not
set (the composite's CLI has no such flag) — the composite returns
normally and every always-run technique has written its payload for every
zone (census-diff too, when a reference was supplied).  The composite
itself catches nothing, so this is conditional on no technique raising. -/
theorem c1_composite_fanout (env : Env) (zones : List ZoneImage) (r : Report) (args : Args)
    (hlm : args.list_models = false)
    (href : hasRef args = true → ∃ img, env.loadImage (args.ref.getD "") = some img) :
    ∃ r', allRun env zones r args = Except.ok r' ∧
      (∀ z ∈ zones, Present r' z.name "census" ∧ Present r' z.name "colours" ∧
        Present r' z.name "lines" ∧ Present r' z.name "regions" ∧ Present r' z.name "zones") ∧
      (hasRef args = true → ∀ z ∈ zones, Present r' z.name "census-diff") := by
  have hloop : allRun env zones r args =
      seqRun techRunOf env zones args (selectedTechs (hasRef args)) r :=
    allRunGo_eq_seqRun techRunOf env zones args (hasRef args) sortedTechNames r
  cases hr : hasRef args with
  | false =>
    have hsel : selectedTechs false =
        ["census", "colours", "lines", "llm_vision", "regions", "zones"] := by decide
    rw [hr, hsel] at hloop
    set R1 := zones.foldl (fun r z => censusStep env z r) r with hR1
    set R2 := zones.foldl (fun r z => coloursStep env z r) R1 with hR2
    set R3 := zones.foldl (fun r z => linesStep z r) R2 with hR3
    obtain ⟨R4, hllm, hllmM⟩ := llmVisionRun_ok env zones R3 args hlm
    set R5 := zones.foldl (fun r z => regionsStep z r) R4 with hR5
    set R6 := zones.foldl (fun r z => zonesStep args z r) R5 with hR6
    have hrun : allRun env zones r args = Except.ok R6 := by
      rw [hloop, seqRun_cons_ok (show techRunOf "census" env zones r args = Except.ok R1 from rfl),
        seqRun_cons_ok (show techRunOf "colours" env zones R1 args = Except.ok R2 from rfl),
        seqRun_cons_ok (show techRunOf "lines" env zones R2 args = Except.ok R3 from rfl),
        seqRun_cons_ok (show techRunOf "llm_vision" env zones R3 args = Except.ok R4 from hllm),
        seqRun_cons_ok (show techRunOf "regions" env zones R4 args = Except.ok R5 from rfl),
        seqRun_cons_ok (show techRunOf "zones" env zones R5 args = Except.ok R6 from rfl)]
      rfl
    refine ⟨R6, hrun, ?_, ?_⟩
    · intro z hz
      have mono23 : ∀ zn t, Present R1 zn t → Present R3 zn t := fun zn t hp =>
        foldl_present_mono _ (fun r z zn t hp => linesStep_present z r zn t hp) zones R2 zn t
          (foldl_present_mono _ (fun r z zn t hp => coloursStep_present env z r zn t hp) zones R1 zn t hp)
      have mono46 : ∀ zn t, Present R4 zn t → Present R6 zn t := fun zn t hp =>
        foldl_present_mono _ (fun r z zn t hp => zonesStep_present args z r zn t hp) zones R5 zn t
          (foldl_present_mono _ (fun r z zn t hp => regionsStep_present z r zn t hp) zones R4 zn t hp)
      have mono16 : ∀ zn t, Present R1 zn t → Present R6 zn t := fun zn t hp =>
        mono46 zn t (hllmM zn t (mono23 zn t hp))
      refine ⟨?_, ?_, ?_, ?_, ?_⟩
      · exact mono16 _ _ (foldl_present_writes "census" _
          (fun r z => censusStep_writes env z r)
          (fun r z zn t hp => censusStep_present env z r zn t hp) zones r z hz)
      · refine mono46 _ _ (hllmM _ _ (foldl_present_mono _
          (fun r z zn t hp => linesStep_present z r zn t hp) zones R2 _ _ ?_))
        exact foldl_present_writes "colours" _
          (fun r z => coloursStep_writes env z r)
          (fun r z zn t hp => coloursStep_present env z r zn t hp) zones R1 z hz
      · exact mono46 _ _ (hllmM _ _ (foldl_present_writes "lines" _
          (fun r z => linesStep_writes z r)
          (fun r z zn t hp => linesStep_present z r zn t hp) zones R2 z hz))
      · exact foldl_present_mono _ (fun r z zn t hp => zonesStep_present args z r zn t hp)
          zones R5 _ _ (foldl_present_writes "regions" _
            (fun r z => regionsStep_writes z r)
            (fun r z zn t hp => regionsStep_present z r zn t hp) zones R4 z hz)
      · exact foldl_present_writes "zones" _
          (fun r z => zonesStep_writes args z r)
          (fun r z zn t hp => zonesStep_present args z r zn t hp) zones R5 z hz
    · intro htrue
      exact absurd htrue (by simp)
  | true =>
    have hsel : selectedTechs true =
        ["census", "census-diff", "colours", "lines", "llm_vision", "regions", "zones"] := by
      decide
    rw [hr, hsel] at hloop
    obtain ⟨img, himg⟩ := href hr
    set R1 := zones.foldl (fun r z => censusStep env z r) r with hR1
    set RD := zones.foldl (fun r z => censusDiffStep env img z r) R1 with hRD
    have hcd : censusDiffRun env zones R1 args = Except.ok RD := by
      unfold censusDiffRun
      rw [if_neg (show ¬ ¬ hasRef args = true from fun hc => hc hr), himg]
    set R2 := zones.foldl (fun r z => coloursStep env z r) RD with hR2
    set R3 := zones.foldl (fun r z => linesStep z r) R2 with hR3
    obtain ⟨R4, hllm, hllmM⟩ := llmVisionRun_ok env zones R3 args hlm
    set R5 := zones.foldl (fun r z => regionsStep z r) R4 with hR5
    set R6 := zones.foldl (fun r z => zonesStep args z r) R5 with hR6
    have hrun : allRun env zones r args = Except.ok R6 := by
      rw [hloop, seqRun_cons_ok (show techRunOf "census" env zones r args = Except.ok R1 from rfl),
        seqRun_cons_ok (show techRunOf "census-diff" env zones R1 args = Except.ok RD from hcd),
        seqRun_cons_ok (show techRunOf "colours" env zones RD args = Except.ok R2 from rfl),
        seqRun_cons_ok (show techRunOf "lines" env zones R2 args = Except.ok R3 from rfl),
        seqRun_cons_ok (show techRunOf "llm_vision" env zones R3 args = Except.ok R4 from hllm),
        seqRun_cons_ok (show techRunOf "regions" env zones R4 args = Except.ok R5 from rfl),
        seqRun_cons_ok (show techRunOf "zones" env zones R5 args = Except.ok R6 from rfl)]
      rfl
    have mono23 : ∀ zn t, Present RD zn t → Present R3 zn t := fun zn t hp =>
      foldl_present_mono _ (fun r z zn t hp => linesStep_present z r zn t hp) zones R2 zn t
        (foldl_present_mono _ (fun r z zn t hp => coloursStep_present env z r zn t hp) zones RD zn t hp)
    have mono46 : ∀ zn t, Present R4 zn t → Present R6 zn t := fun zn t hp =>
      foldl_present_mono _ (fun r z zn t hp => zonesStep_present args z r zn t hp) zones R5 zn t
        (foldl_present_mono _ (fun r z zn t hp => regionsStep_present z r zn t hp) zones R4 zn t hp)
    have monoD6 : ∀ zn t, Present RD zn t → Present R6 zn t := fun zn t hp =>
      mono46 zn t (hllmM zn t (mono23 zn t hp))
    refine ⟨R6, hrun, ?_, ?_⟩
    · intro z hz
      refine ⟨?_, ?_, ?_, ?_, ?_⟩
      · refine monoD6 _ _ (foldl_present_mono _
          (fun r z zn t hp => censusDiffStep_present env img z r zn t hp) zones R1 _ _ ?_)
        exact foldl_present_writes "census" _
          (fun r z => censusStep_writes env z r)
          (fun r z zn t hp => censusStep_present env z r zn t hp) zones r z hz
      · refine mono46 _ _ (hllmM _ _ (foldl_present_mono _
          (fun r z zn t hp => linesStep_present z r zn t hp) zones R2 _ _ ?_))
        exact foldl_present_writes "colours" _
          (fun r z => coloursStep_writes env z r)
          (fun r z zn t hp => coloursStep_present env z r zn t hp) zones RD z hz
      · exact mono46 _ _ (hllmM _ _ (foldl_present_writes "lines" _
          (fun r z => linesStep_writes z r)
          (fun r z zn t hp => linesStep_present z r zn t hp) zones R2 z hz))
      · exact foldl_present_mono _ (fun r z zn t hp => zonesStep_present args z r zn t hp)
          zones R5 _ _ (foldl_present_writes "regions" _
            (fun r z => regionsStep_writes z r)
            (fun r z zn t hp => regionsStep_present z r zn t hp) zones R4 z hz)
      · exact foldl_present_writes "zones" _
          (fun r z => zonesStep_writes args z r)
          (fun r z zn t hp => zonesStep_present args z r zn t hp) zones R5 z hz
    · intro _ z hz
      exact monoD6 _ _ (foldl_present_writes "census-diff" _
        (fun r z => censusDiffStep_writes env img z r)
        (fun r z zn t hp => censusDiffStep_present env img z r zn t hp) zones R1 z hz)

theorem c1_composite_fanout_witness :
    ∃ r', allRun envBare [zBlank] Report.empty argsPlain = Except.ok r' ∧
      (∀ z ∈ [zBlank], Present r' z.name "census" ∧ Present r' z.name "colours" ∧
        Present r' z.name "lines" ∧ Present r' z.name "regions" ∧ Present r' z.name "zones") ∧
      (hasRef argsPlain = true → ∀ z ∈ [zBlank], Present r' z.name "census-diff") :=
  c1_composite_fanout envBare [zBlank] Report.empty argsPlain rfl
    (fun h => absurd h (by decide))

/-- C2 counterexample: with a reference image supplied, the claim's
invoked-technique set contains the reference pixel-diff technique
(`compare`), but the composite's `SKIP` set excludes it unconditionally;
without a reference the two sets agree. -/
theorem c2_compare_always_skipped :
    "compare" ∈ claimSelectedTechs true ∧ "compare" ∉ selectedTechs true ∧
    claimSelectedTechs false = selectedTechs false := by decide

/-- C2 (amended): the composite executes exactly the registered techniques
minus {all, verify, ocr, compare}, additionally minus census-diff when no
reference image was supplied, in alphabetical order. -/
theorem c2_composite_selection :
    (∀ (env : Env) (zones : List ZoneImage) (args : Args) (r : Report),
      allRun env zones r args = seqRun techRunOf env zones args (selectedTechs (hasRef args)) r) ∧
    selectedTechs true =
      ["census", "census-diff", "colours", "lines", "llm_vision", "regions", "zones"] ∧
    selectedTechs false =
      ["census", "colours", "lines", "llm_vision", "regions", "zones"] := by
  refine ⟨?_, by decide, by decide⟩
  intro env zones args r
  exact allRunGo_eq_seqRun techRunOf env zones args (hasRef args) sortedTechNames r

end GuxTool
